import Mathlib

/-!
Verification of the workflow-graph node resolution and typed mutation engine
of the stable-diffusion-bot repository (crate `comfyui-api`, file
`src/comfy/setter.rs`), against its natural-language specification.

The mutation layer (`setter.rs`) is embedded faithfully from the source.
The graph model (`models.rs`) and the resolution engine (`getter.rs`) are not
among the provided sources; they are modelled from the specification
(sections 3, 4.1-4.3), which describes the graph as an ordered mapping from
string identifiers to tagged node variants, value fields that may be unset,
link fields as (node id, slot) pairs, and the unanchored/anchored query modes.
-/

/-- Modelled from the spec: `models.rs` is missing from the sources. A link
field ("NodeRef") references another node's output as a
(target node id, output slot index) pair (spec section 3). -/
structure NodeRef where
  node_id : String
  slot : Nat
deriving DecidableEq

/-- Modelled from the spec: the `KSampler` node variant. It carries the value
field `seed` (an i64, modelled as `Int`; only assignment is performed on it)
and the conditioning link fields `positive` and `negative`, which are the
fields `setter.rs` reads and writes on this kind. Value fields may be unset
(spec section 3), hence `Option`. -/
structure KSamplerData where
  seed : Option Int
  positive : NodeRef
  negative : NodeRef
deriving DecidableEq

/-- Modelled from the spec: the `SamplerCustom` node variant, with value field
`noise_seed` and the conditioning link fields `positive` and `negative`. -/
structure SamplerCustomData where
  noise_seed : Option Int
  positive : NodeRef
  negative : NodeRef
deriving DecidableEq

/-- Modelled from the spec: the `CLIPTextEncode` node variant with its value
field `text` (the prompt text). -/
structure CLIPTextEncodeData where
  text : Option String
deriving DecidableEq

/-- Modelled from the spec: the `CheckpointLoaderSimple` node variant with its
value field `ckpt_name` (the model checkpoint name). -/
structure CheckpointLoaderSimpleData where
  ckpt_name : Option String
deriving DecidableEq

/-- Modelled from the spec: the `EmptyLatentImage` node variant with its value
fields `width` and `height` (u32 values, modelled as `Nat`; the setter only
assigns them and compares the supplied value with 0, so no overflow arises). -/
structure EmptyLatentImageData where
  width : Option Nat
  height : Option Nat
deriving DecidableEq

/-- Modelled from the spec: a Node is a polymorphic value over a closed set of
variants (spec section 3, "tagged variant (sum type) over the fixed kind
set", section 9). -/
inductive Node
  | kSampler (d : KSamplerData)
  | samplerCustom (d : SamplerCustomData)
  | clipTextEncode (d : CLIPTextEncodeData)
  | checkpointLoaderSimple (d : CheckpointLoaderSimpleData)
  | emptyLatentImage (d : EmptyLatentImageData)
deriving DecidableEq

/-- The tag identifying which fixed record shape a node has. -/
inductive Kind
  | kSampler
  | samplerCustom
  | clipTextEncode
  | checkpointLoaderSimple
  | emptyLatentImage
deriving DecidableEq

/-- The variant tag of a node. -/
def Node.kind : Node → Kind
  | .kSampler _ => .kSampler
  | .samplerCustom _ => .samplerCustom
  | .clipTextEncode _ => .clipTextEncode
  | .checkpointLoaderSimple _ => .checkpointLoaderSimple
  | .emptyLatentImage _ => .emptyLatentImage

/-- Modelled from the spec: a Graph ("Prompt") is an ordered mapping from node
identifier to node; insertion order is preserved and determines the scan
order of the unanchored query (spec section 3). Modelled as an association
list in insertion order. -/
abbrev Prompt := List (String × Node)

/-- The identifiers of a graph, in insertion order. -/
def keys (g : Prompt) : List String := g.map Prod.fst

/-- Modelled from the spec: `get(id)` of the Graph Model (spec section 4.1),
failing (here: `none`) when the id is absent. Lookup of the first entry
carrying the identifier. -/
def getNode : Prompt → String → Option Node
  | [], _ => none
  | p :: t, id => if p.1 = id then some p.2 else getNode t id

/-- Writing a node back through a mutable reference obtained by `get_mut(id)`:
every entry carrying the identifier is replaced (under the spec's uniqueness
invariant there is exactly one). -/
def setNodeAt : Prompt → String → Node → Prompt
  | [], _, _ => []
  | p :: t, id, n => (if p.1 = id then (p.1, n) else p) :: setNodeAt t id n

/-- Modelled from the spec: the ids of all nodes of kind `k`, collected by the
unanchored scan in insertion order (spec section 4.3). -/
def matchesOfKind : Prompt → Kind → List String
  | [], _ => []
  | p :: t, k => if p.2.kind = k then p.1 :: matchesOfKind t k else matchesOfKind t k

/-- The resolution failure kinds of the unanchored query (spec section 7). -/
inductive ResErr
  | notFound
  | ambiguous
deriving DecidableEq

/-- Modelled from the spec: the unanchored (global) query of the Resolution
Engine (`getter.rs` is missing from the sources). Scan all nodes in insertion
order collecting those of kind `k`: exactly one match returns its id, zero
matches fail with `NotFound`, several matches fail with `Ambiguous`
(spec section 4.3). -/
def unanchoredQuery (g : Prompt) (k : Kind) : Except ResErr String :=
  match matchesOfKind g k with
  | [] => .error .notFound
  | [id] => .ok id
  | _ :: _ :: _ => .error .ambiguous

/-- Modelled from the spec: the generic `find_node` of the Resolution Engine
(`getter.rs` is missing from the sources). Without an anchor it is the
unanchored query. With an anchor it checks that the anchor itself exists and
is of the requested kind; otherwise resolution fails (spec section 4.3: "If
the anchor itself cannot be found as kind belonging to one of the recognized
sampler kinds, or the relevant link field is absent, resolution fails"). -/
def find_node (g : Prompt) (k : Kind) (anchor : Option String) : Option String :=
  match anchor with
  | none =>
    match unanchoredQuery g k with
    | .ok id => some id
    | .error _ => none
  | some a =>
    match getNode g a with
    | some n => if n.kind = k then some a else none
    | none => none

/-- Modelled from the spec: `guess_node` of the Resolution Engine as used by
the generic `Setter::set` with no anchor: the unanchored kind-query
(spec section 4.4, "apply(graph) resolves using the unanchored kind-query"). -/
def guess_node (g : Prompt) (k : Kind) : Option String := find_node g k none

/-- Errors of the mutation layer, modelling the `anyhow` error values built in
`setter.rs`: a bare message (`anyhow!(..)` or a `.context(..)` attached to an
absent option) or a context string wrapped around an inner error. -/
inductive Err
  | msg (s : String)
  | context (c : String) (e : Err)
deriving DecidableEq

/-- Outcome of one setter invocation on a graph: success with the mutated
graph, a returned error together with the graph state it leaves behind, or a
process-terminating Rust panic (`fatal`), which yields no graph at all. -/
inductive RunOut
  | ok (g : Prompt)
  | err (e : Err) (g : Prompt)
  | fatal
deriving DecidableEq

/-- The graph state an invocation leaves behind, when it terminates normally. -/
def RunOut.graph? : RunOut → Option Prompt
  | .ok g => some g
  | .err _ g => some g
  | .fatal => none

/-- Applies a `set_value` result at node `id`: the (possibly partially)
mutated node is written back through the mutable reference, and the
`set_value` result is returned (`setter.rs`, the tail of `set`, `set_from`
and `set_node`). -/
def writeAt (g : Prompt) (id : String) (p : Node × Except Err Unit) : RunOut :=
  match p.2 with
  | .ok _ => .ok (setNodeAt g id p.1)
  | .error e => .err e (setNodeAt g id p.1)

/-- A concrete implementation of the `Setter<T, N>` trait of `setter.rs` with
its value already converted in (`S::from(value)`): the target node kind `N`,
the `set_value` mutation on a node (returning the node state it leaves behind
and the result), and the `find_node` resolution (the trait's default or an
override). -/
structure SetterImpl where
  targetKind : Kind
  set_value : Node → Node × Except Err Unit
  find_node : Prompt → Option String → Option String

/-- `Setter::set` (setter.rs lines 144-151): resolve via
`guess_node::<N>(prompt, None)`; if no node is found return the error
`Failed to find node`, otherwise apply `set_value` to the resolved node. -/
def SetterImpl.set (s : SetterImpl) (g : Prompt) : RunOut :=
  match guess_node g s.targetKind with
  | none => .err (.msg "Failed to find node") g
  | some id =>
    match getNode g id with
    | none => .err (.msg "Failed to find node") g
    | some n => writeAt g id (s.set_value n)

/-- `Setter::set_from` (setter.rs lines 162-171): resolve via
`Self::find_node(prompt, Some(output_node))`; a failed resolution or a failed
`get_node_by_id_mut` on the resolved id returns `Failed to find node`,
otherwise `set_value` is applied to the resolved node. -/
def SetterImpl.set_from (s : SetterImpl) (g : Prompt) (anchor : String) : RunOut :=
  match s.find_node g (some anchor) with
  | none => .err (.msg "Failed to find node") g
  | some id =>
    match getNode g id with
    | none => .err (.msg "Failed to find node") g
    | some n => writeAt g id (s.set_value n)

/-- `Setter::set_node` (setter.rs lines 183-186): the code runs
`prompt.get_node_by_id_mut(node).unwrap()`, so an absent id makes the process
panic (`fatal`); on a present id `set_value` is applied to it. -/
def SetterImpl.set_node (s : SetterImpl) (g : Prompt) (id : String) : RunOut :=
  match getNode g id with
  | none => .fatal
  | some n => writeAt g id (s.set_value n)

/-- `PromptSetter::set_value` (setter.rs lines 220-227): downcast the node to
`CLIPTextEncode` (failure: `Failed to cast node`), take a mutable handle on
the populated `text` field (failure when unset: `Failed to get text value`),
and assign the carried prompt string. On failure the node is unchanged. -/
def promptSetValue (v : String) : Node → Node × Except Err Unit
  | .clipTextEncode d =>
    match d.text with
    | some _ => (.clipTextEncode { text := some v }, .ok ())
    | none => (.clipTextEncode d, .error (.msg "Failed to get text value"))
  | n => (n, .error (.msg "Failed to cast node"))

/-- `ModelSetter::set_value` (setter.rs lines 297-304): downcast to
`CheckpointLoaderSimple` and assign `ckpt_name` when populated. -/
def modelSetValue (v : String) : Node → Node × Except Err Unit
  | .checkpointLoaderSimple d =>
    match d.ckpt_name with
    | some _ => (.checkpointLoaderSimple { ckpt_name := some v }, .ok ())
    | none => (.checkpointLoaderSimple d, .error (.msg "Failed to get ckpt_name value"))
  | n => (n, .error (.msg "Failed to cast node"))

/-- The width half of `SizeSetter::set_value` (setter.rs lines 323-329):
downcast to `EmptyLatentImage` and assign `width` when populated. -/
def sizeWriteWidth (w : Nat) : Node → Node × Except Err Unit
  | .emptyLatentImage d =>
    match d.width with
    | some _ => (.emptyLatentImage { d with width := some w }, .ok ())
    | none => (.emptyLatentImage d, .error (.msg "Failed to get width value"))
  | n => (n, .error (.msg "Failed to cast node"))

/-- The height half of `SizeSetter::set_value` (setter.rs lines 330-336). -/
def sizeWriteHeight (h : Nat) : Node → Node × Except Err Unit
  | .emptyLatentImage d =>
    match d.height with
    | some _ => (.emptyLatentImage { d with height := some h }, .ok ())
    | none => (.emptyLatentImage d, .error (.msg "Failed to get height value"))
  | n => (n, .error (.msg "Failed to cast node"))

/-- `SizeSetter::set_value` (setter.rs lines 322-338): write `width` when the
supplied width is positive (an error propagates immediately through `?`),
then write `height` when the supplied height is positive. A zero dimension is
skipped. A failure in the height half leaves an already performed width write
in place. -/
def sizeSetValue (w h : Nat) (n : Node) : Node × Except Err Unit :=
  match (if w > 0 then sizeWriteWidth w n else (n, .ok ())) with
  | (n1, .ok _) => if h > 0 then sizeWriteHeight h n1 else (n1, .ok ())
  | (n1, .error e) => (n1, .error e)

/-- `SeedSetterT::<KSampler>::set_value` (setter.rs lines 358-365): downcast
to `KSampler` and assign the populated `seed` field. -/
def seedKSetValue (v : Int) : Node → Node × Except Err Unit
  | .kSampler d =>
    match d.seed with
    | some _ => (.kSampler { d with seed := some v }, .ok ())
    | none => (.kSampler d, .error (.msg "Failed to get seed value"))
  | n => (n, .error (.msg "Failed to cast node"))

/-- `SeedSetterT::<SamplerCustom>::set_value` (setter.rs lines 369-376):
downcast to `SamplerCustom` and assign the populated `noise_seed` field. -/
def seedCustomSetValue (v : Int) : Node → Node × Except Err Unit
  | .samplerCustom d =>
    match d.noise_seed with
    | some _ => (.samplerCustom { d with noise_seed := some v }, .ok ())
    | none => (.samplerCustom d, .error (.msg "Failed to get seed value"))
  | n => (n, .error (.msg "Failed to cast node"))

/-- The checked downcast `prompt.get_node::<&KSampler>(&node)` used inside
`PromptSetter::find_node`: the node's data when the id resolves to a
`KSampler`, `None` otherwise. -/
def kSamplerAt (g : Prompt) (id : String) : Option KSamplerData :=
  match getNode g id with
  | some (.kSampler d) => some d
  | _ => none

/-- The checked downcast `prompt.get_node::<&SamplerCustom>(&node)` used
inside `PromptSetter::find_node`. -/
def samplerCustomAt (g : Prompt) (id : String) : Option SamplerCustomData :=
  match getNode g id with
  | some (.samplerCustom d) => some d
  | _ => none

/-- `PromptSetter::find_node` (setter.rs lines 229-241): first resolve a
`KSampler` (anchored or unanchored via the generic `find_node`); when that
succeeds and the resolved node downcasts to `KSampler`, return its
`positive` link's node id. Otherwise fall through to the same attempt for
`SamplerCustom`; when both fail, `None`. -/
def promptFindNode (g : Prompt) (anchor : Option String) : Option String :=
  match
    (match find_node g Kind.kSampler anchor with
     | some id => (kSamplerAt g id).map (fun (d : KSamplerData) => d.positive.node_id)
     | none => none)
  with
  | some r => some r
  | none =>
    match find_node g Kind.samplerCustom anchor with
    | some id => (samplerCustomAt g id).map (fun (d : SamplerCustomData) => d.positive.node_id)
    | none => none

/-- `NegativePromptSetter::find_node` (setter.rs lines 261-273): identical to
`PromptSetter::find_node` but returning the `negative` link's node id. -/
def negativeFindNode (g : Prompt) (anchor : Option String) : Option String :=
  match
    (match find_node g Kind.kSampler anchor with
     | some id => (kSamplerAt g id).map (fun (d : KSamplerData) => d.negative.node_id)
     | none => none)
  with
  | some r => some r
  | none =>
    match find_node g Kind.samplerCustom anchor with
    | some id => (samplerCustomAt g id).map (fun (d : SamplerCustomData) => d.negative.node_id)
    | none => none

/-- `PromptSetter` as a `Setter<String, CLIPTextEncode>` (setter.rs line 219):
the trait's default `set`, `set_from`, `set_node` with the overridden
`find_node` and the text-writing `set_value`. -/
def promptSetterImpl (v : String) : SetterImpl :=
  { targetKind := .clipTextEncode
    set_value := promptSetValue v
    find_node := promptFindNode }

/-- `NegativePromptSetter` as a `Setter<String, CLIPTextEncode>`
(setter.rs line 256): its `set_value` delegates to `PromptSetter::set_value`
on the same text (via `From<&NegativePromptSetter> for PromptSetter`), and
its `find_node` follows the negative link. -/
def negativePromptSetterImpl (v : String) : SetterImpl :=
  { targetKind := .clipTextEncode
    set_value := promptSetValue v
    find_node := negativeFindNode }

/-- `ModelSetter` as a `Setter<String, CheckpointLoaderSimple>`
(setter.rs line 296), with the trait's default `find_node`. -/
def modelSetterImpl (v : String) : SetterImpl :=
  { targetKind := .checkpointLoaderSimple
    set_value := modelSetValue v
    find_node := fun g a => find_node g .checkpointLoaderSimple a }

/-- `SizeSetter` as a `Setter<(u32, u32), EmptyLatentImage>`
(setter.rs line 321), with the trait's default `find_node`. -/
def sizeSetterImpl (w h : Nat) : SetterImpl :=
  { targetKind := .emptyLatentImage
    set_value := sizeSetValue w h
    find_node := fun g a => find_node g .emptyLatentImage a }

/-- `SeedSetterT<KSampler>` as a `Setter<i64, KSampler>` (setter.rs line 357),
with the trait's default `find_node`. -/
def seedKImpl (v : Int) : SetterImpl :=
  { targetKind := .kSampler
    set_value := seedKSetValue v
    find_node := fun g a => find_node g .kSampler a }

/-- `SeedSetterT<SamplerCustom>` as a `Setter<i64, SamplerCustom>`
(setter.rs line 368), with the trait's default `find_node`. -/
def seedCustomImpl (v : Int) : SetterImpl :=
  { targetKind := .samplerCustom
    set_value := seedCustomSetValue v
    find_node := fun g a => find_node g .samplerCustom a }

/-- The `.context("Failed to set value")` wrapping the `DelegatingSetter`
applies to the second delegate's result inside `or_else`
(setter.rs lines 423-427): a success passes through, a failure gains the
context. -/
def delegTail (r : RunOut) : RunOut :=
  match r with
  | .ok g2 => .ok g2
  | .fatal => .fatal
  | .err e2 g2 => .err (.context "Failed to set value" e2) g2

/-- `DelegatingSetter::set` (setter.rs lines 422-428): attempt the first
delegate's full `set`; on its failure attempt the second delegate's `set`
with a clone of the same value on the graph state the first attempt left
behind (the same `&mut Prompt`), wrapping a second failure in the context
`Failed to set value`. -/
def delegSet (s1 s2 : SetterImpl) (g : Prompt) : RunOut :=
  match s1.set g with
  | .ok g1 => .ok g1
  | .fatal => .fatal
  | .err _ g1 => delegTail (s2.set g1)

/-- `DelegatingSetter::set_from` (setter.rs lines 430-438). -/
def delegSetFrom (s1 s2 : SetterImpl) (g : Prompt) (anchor : String) : RunOut :=
  match s1.set_from g anchor with
  | .ok g1 => .ok g1
  | .fatal => .fatal
  | .err _ g1 => delegTail (s2.set_from g1 anchor)

/-- `DelegatingSetter::set_node` (setter.rs lines 440-448). -/
def delegSetNode (s1 s2 : SetterImpl) (g : Prompt) (id : String) : RunOut :=
  match s1.set_node g id with
  | .ok g1 => .ok g1
  | .fatal => .fatal
  | .err _ g1 => delegTail (s2.set_node g1 id)

/-- The closed set of concrete setters provided by `setter.rs`, each carrying
the value its `From` conversion stores: `PromptSetter`,
`NegativePromptSetter`, `ModelSetter`, `SizeSetter`, the two `SeedSetterT`
instantiations, and the composed `SeedSetter` (the `DelegatingSetter` over
the two seed setters, setter.rs lines 392-398). -/
inductive TheSetter
  | positive (v : String)
  | negative (v : String)
  | model (v : String)
  | size (w h : Nat)
  | seedK (v : Int)
  | seedCustom (v : Int)
  | seed (v : Int)

/-- The three public operations of a setter (spec section 4.4):
`set` (unanchored), `set_from` (anchored) and `set_node` (direct id). -/
inductive Op
  | opSet
  | opSetFrom (anchor : String)
  | opSetNode (id : String)

/-- Runs one concrete setter operation on a graph. The `seed` case uses the
`DelegatingSetter`'s overridden operations; every other setter uses the trait
defaults with its own `set_value` and `find_node`. -/
def TheSetter.run : TheSetter → Op → Prompt → RunOut
  | .positive v, .opSet, g => (promptSetterImpl v).set g
  | .positive v, .opSetFrom a, g => (promptSetterImpl v).set_from g a
  | .positive v, .opSetNode i, g => (promptSetterImpl v).set_node g i
  | .negative v, .opSet, g => (negativePromptSetterImpl v).set g
  | .negative v, .opSetFrom a, g => (negativePromptSetterImpl v).set_from g a
  | .negative v, .opSetNode i, g => (negativePromptSetterImpl v).set_node g i
  | .model v, .opSet, g => (modelSetterImpl v).set g
  | .model v, .opSetFrom a, g => (modelSetterImpl v).set_from g a
  | .model v, .opSetNode i, g => (modelSetterImpl v).set_node g i
  | .size w h, .opSet, g => (sizeSetterImpl w h).set g
  | .size w h, .opSetFrom a, g => (sizeSetterImpl w h).set_from g a
  | .size w h, .opSetNode i, g => (sizeSetterImpl w h).set_node g i
  | .seedK v, .opSet, g => (seedKImpl v).set g
  | .seedK v, .opSetFrom a, g => (seedKImpl v).set_from g a
  | .seedK v, .opSetNode i, g => (seedKImpl v).set_node g i
  | .seedCustom v, .opSet, g => (seedCustomImpl v).set g
  | .seedCustom v, .opSetFrom a, g => (seedCustomImpl v).set_from g a
  | .seedCustom v, .opSetNode i, g => (seedCustomImpl v).set_node g i
  | .seed v, .opSet, g => delegSet (seedKImpl v) (seedCustomImpl v) g
  | .seed v, .opSetFrom a, g => delegSetFrom (seedKImpl v) (seedCustomImpl v) g a
  | .seed v, .opSetNode i, g => delegSetNode (seedKImpl v) (seedCustomImpl v) g i

/-- Whether a concrete setter is the `SizeSetter` (the only setter whose
`set_value` touches two fields and can fail after a first write). -/
def TheSetter.isSize : TheSetter → Bool
  | .size _ _ => true
  | _ => false

/-- The part of a node the Resolution Engine can observe: its kind and its
conditioning link fields. Value-field writes leave the view unchanged, which
is what makes resolution deterministic across setter invocations. -/
structure NodeView where
  kind : Kind
  positive : Option NodeRef
  negative : Option NodeRef
deriving DecidableEq

/-- The resolution-relevant view of a node. -/
def Node.view : Node → NodeView
  | .kSampler d => ⟨.kSampler, some d.positive, some d.negative⟩
  | .samplerCustom d => ⟨.samplerCustom, some d.positive, some d.negative⟩
  | .clipTextEncode _ => ⟨.clipTextEncode, none, none⟩
  | .checkpointLoaderSimple _ => ⟨.checkpointLoaderSimple, none, none⟩
  | .emptyLatentImage _ => ⟨.emptyLatentImage, none, none⟩

/-- The resolution-relevant view of a whole graph. -/
def viewAssoc (g : Prompt) : List (String × NodeView) :=
  g.map (fun p => (p.1, p.2.view))

/-- The number of fields (value fields and link fields) on which two nodes of
the same kind differ; a specification-side measuring device used to state how
many fields a setter invocation changed. Nodes of different kinds count as 2
(more than one), though no setter ever changes a node's kind. -/
def Node.diffCount : Node → Node → Nat
  | .kSampler a, .kSampler b =>
    (if a.seed = b.seed then 0 else 1) + (if a.positive = b.positive then 0 else 1) +
      (if a.negative = b.negative then 0 else 1)
  | .samplerCustom a, .samplerCustom b =>
    (if a.noise_seed = b.noise_seed then 0 else 1) +
      (if a.positive = b.positive then 0 else 1) +
      (if a.negative = b.negative then 0 else 1)
  | .clipTextEncode a, .clipTextEncode b => if a.text = b.text then 0 else 1
  | .checkpointLoaderSimple a, .checkpointLoaderSimple b =>
    if a.ckpt_name = b.ckpt_name then 0 else 1
  | .emptyLatentImage a, .emptyLatentImage b =>
    (if a.width = b.width then 0 else 1) + (if a.height = b.height then 0 else 1)
  | _, _ => 2

/-- A node's view records its kind. -/
theorem Node.view_kind (n : Node) : n.view.kind = n.kind := by
  cases n <;> rfl

/-- Looking up the id just written yields the written node (when the id was
present at all). -/
theorem getNode_setNodeAt_self (g : Prompt) (id : String) (n : Node) :
    getNode (setNodeAt g id n) id = (getNode g id).map (fun _ => n) := by
  induction g with
  | nil => rfl
  | cons p t ih =>
    obtain ⟨a, b⟩ := p
    by_cases h : a = id
    · simp [getNode, setNodeAt, h]
    · simp [getNode, setNodeAt, h, ih]

/-- Writing at one id leaves every other id's node unchanged. -/
theorem getNode_setNodeAt_ne (g : Prompt) (id j : String) (n : Node) (h : j ≠ id) :
    getNode (setNodeAt g id n) j = getNode g j := by
  induction g with
  | nil => rfl
  | cons p t ih =>
    obtain ⟨a, b⟩ := p
    have hij : id ≠ j := fun hj => h hj.symm
    by_cases hp : a = id
    · simp [getNode, setNodeAt, hp, hij, ih]
    · by_cases hj : a = j
      · simp [getNode, setNodeAt, hp, hj, h]
      · simp [getNode, setNodeAt, hp, hj, ih]

/-- Writing twice at the same id keeps only the second write. -/
theorem setNodeAt_setNodeAt (g : Prompt) (id : String) (n1 n2 : Node) :
    setNodeAt (setNodeAt g id n1) id n2 = setNodeAt g id n2 := by
  induction g with
  | nil => rfl
  | cons p t ih =>
    obtain ⟨a, b⟩ := p
    by_cases h : a = id <;> simp [setNodeAt, h, ih]

/-- Writing a node does not change the identifiers of a graph. -/
theorem keys_setNodeAt (g : Prompt) (id : String) (n : Node) :
    keys (setNodeAt g id n) = keys g := by
  induction g with
  | nil => rfl
  | cons p t ih =>
    obtain ⟨a, b⟩ := p
    have hfst : ((if a = id then (a, n) else (a, b)) : String × Node).1 = a := by
      split <;> rfl
    simp only [setNodeAt, keys, List.map_cons, hfst]
    have := ih
    simp only [keys] at this
    rw [this]

/-- Writing at an absent id is a no-op. -/
theorem setNodeAt_of_not_mem (g : Prompt) (id : String) (n : Node) (h : id ∉ keys g) :
    setNodeAt g id n = g := by
  induction g with
  | nil => rfl
  | cons p t ih =>
    obtain ⟨a, b⟩ := p
    simp only [keys, List.map_cons, List.mem_cons] at h
    push_neg at h
    have h1 : ¬a = id := fun he => h.1 he.symm
    have h2 : id ∉ keys t := by simpa [keys] using h.2
    simp [setNodeAt, h1, ih h2]

/-- A present id's node lies in the graph's identifier list. -/
theorem mem_keys_of_getNode (g : Prompt) (id : String) (n : Node)
    (h : getNode g id = some n) : id ∈ keys g := by
  induction g with
  | nil => simp [getNode] at h
  | cons p t ih =>
    obtain ⟨a, b⟩ := p
    by_cases hp : a = id
    · simp [keys, hp]
    · simp only [getNode, hp, if_false] at h
      simp only [keys, List.map_cons, List.mem_cons]
      exact Or.inr (by simpa [keys] using ih h)

/-- An absent identifier has no node. -/
theorem getNode_eq_none_of_not_mem (g : Prompt) (id : String) (h : id ∉ keys g) :
    getNode g id = none := by
  induction g with
  | nil => rfl
  | cons p t ih =>
    obtain ⟨a, b⟩ := p
    simp only [keys, List.map_cons, List.mem_cons] at h
    push_neg at h
    have h1 : ¬a = id := fun he => h.1 he.symm
    simp [getNode, h1, ih (by simpa [keys] using h.2)]

/-- Under the uniqueness invariant, writing back the node a lookup returned is
a no-op. -/
theorem setNodeAt_self (g : Prompt) (id : String) (n : Node)
    (hnd : (keys g).Nodup) (h : getNode g id = some n) : setNodeAt g id n = g := by
  induction g with
  | nil => rfl
  | cons p t ih =>
    obtain ⟨a, b⟩ := p
    simp only [keys, List.map_cons, List.nodup_cons] at hnd
    by_cases hp : a = id
    · have hbn : b = n := by
        have h2 : some b = some n := by
          rw [← h]; simp [getNode, hp]
        exact Option.some_inj.mp h2
      subst hbn
      have hid : id ∉ keys t := by
        rw [← hp]; simpa [keys] using hnd.1
      simp [setNodeAt, hp, setNodeAt_of_not_mem t id b hid]
    · simp only [getNode, hp, if_false] at h
      simp [setNodeAt, hp, ih (by simpa [keys] using hnd.2) h]

/-- Graphs with equal resolution views produce the same kind scan. -/
theorem matchesOfKind_viewEq (g g' : Prompt) (h : viewAssoc g = viewAssoc g') (k : Kind) :
    matchesOfKind g k = matchesOfKind g' k := by
  induction g generalizing g' with
  | nil =>
    cases g' with
    | nil => rfl
    | cons q t' => simp [viewAssoc] at h
  | cons p t ih =>
    cases g' with
    | nil => simp [viewAssoc] at h
    | cons q t' =>
      obtain ⟨a, b⟩ := p
      obtain ⟨c, d⟩ := q
      simp only [viewAssoc, List.map_cons, List.cons.injEq, Prod.mk.injEq] at h
      obtain ⟨⟨hac, hview⟩, htail⟩ := h
      have hkind : b.kind = d.kind := by
        rw [← Node.view_kind, ← Node.view_kind, hview]
      have ht := ih t' (by simpa [viewAssoc] using htail)
      by_cases hb : b.kind = k
      · simp [matchesOfKind, hb, hkind.symm.trans hb, hac, ht]
      · have hd : ¬d.kind = k := fun hh => hb (hkind.trans hh)
        simp [matchesOfKind, hb, hd, ht]

/-- Graphs with equal resolution views have view-equal lookups. -/
theorem getNode_viewEq (g g' : Prompt) (h : viewAssoc g = viewAssoc g') (id : String) :
    (getNode g id).map Node.view = (getNode g' id).map Node.view := by
  induction g generalizing g' with
  | nil =>
    cases g' with
    | nil => rfl
    | cons q t' => simp [viewAssoc] at h
  | cons p t ih =>
    cases g' with
    | nil => simp [viewAssoc] at h
    | cons q t' =>
      obtain ⟨a, b⟩ := p
      obtain ⟨c, d⟩ := q
      simp only [viewAssoc, List.map_cons, List.cons.injEq, Prod.mk.injEq] at h
      obtain ⟨⟨hac, hview⟩, htail⟩ := h
      by_cases ha : a = id
      · simp [getNode, ha, hac.symm.trans ha, hview]
      · have hc : ¬c = id := fun hh => ha (hac.trans hh)
        simp [getNode, ha, hc, ih t' (by simpa [viewAssoc] using htail)]

/-- The unanchored query only reads the resolution view. -/
theorem unanchoredQuery_viewEq (g g' : Prompt) (h : viewAssoc g = viewAssoc g') (k : Kind) :
    unanchoredQuery g k = unanchoredQuery g' k := by
  unfold unanchoredQuery
  rw [matchesOfKind_viewEq g g' h k]

/-- The generic resolution only reads the resolution view. -/
theorem find_node_viewEq (g g' : Prompt) (h : viewAssoc g = viewAssoc g') (k : Kind)
    (a : Option String) : find_node g k a = find_node g' k a := by
  cases a with
  | none => simp [find_node, unanchoredQuery_viewEq g g' h k]
  | some x =>
    have hg := getNode_viewEq g g' h x
    simp only [find_node]
    cases hx : getNode g x with
    | none =>
      cases hx' : getNode g' x with
      | none => rfl
      | some m => rw [hx, hx'] at hg; simp at hg
    | some n =>
      cases hx' : getNode g' x with
      | none => rw [hx, hx'] at hg; simp at hg
      | some m =>
        rw [hx, hx'] at hg
        have hv : n.view = m.view := by simpa using hg
        have hk : n.kind = m.kind := by rw [← Node.view_kind, ← Node.view_kind, hv]
        simp only [hk]

/-- The implicit-anchor guess only reads the resolution view. -/
theorem guess_node_viewEq (g g' : Prompt) (h : viewAssoc g = viewAssoc g') (k : Kind) :
    guess_node g k = guess_node g' k := find_node_viewEq g g' h k none

/-- The `KSampler` downcast's link fields only depend on the resolution view. -/
theorem kSamplerAt_links_viewEq (g g' : Prompt) (h : viewAssoc g = viewAssoc g')
    (id : String) :
    (kSamplerAt g id).map (fun d => (d.positive, d.negative)) =
      (kSamplerAt g' id).map (fun d => (d.positive, d.negative)) := by
  have hg := getNode_viewEq g g' h id
  unfold kSamplerAt
  cases hx : getNode g id with
  | none =>
    cases hx' : getNode g' id with
    | none => rfl
    | some m => rw [hx, hx'] at hg; simp at hg
  | some n =>
    cases hx' : getNode g' id with
    | none => rw [hx, hx'] at hg; simp at hg
    | some m =>
      rw [hx, hx'] at hg
      have hv : n.view = m.view := by simpa using hg
      cases n <;> cases m <;> simp_all [Node.view]

/-- The `SamplerCustom` downcast's link fields only depend on the resolution
view. -/
theorem samplerCustomAt_links_viewEq (g g' : Prompt) (h : viewAssoc g = viewAssoc g')
    (id : String) :
    (samplerCustomAt g id).map (fun d => (d.positive, d.negative)) =
      (samplerCustomAt g' id).map (fun d => (d.positive, d.negative)) := by
  have hg := getNode_viewEq g g' h id
  unfold samplerCustomAt
  cases hx : getNode g id with
  | none =>
    cases hx' : getNode g' id with
    | none => rfl
    | some m => rw [hx, hx'] at hg; simp at hg
  | some n =>
    cases hx' : getNode g' id with
    | none => rw [hx, hx'] at hg; simp at hg
    | some m =>
      rw [hx, hx'] at hg
      have hv : n.view = m.view := by simpa using hg
      cases n <;> cases m <;> simp_all [Node.view]

/-- The positive-link projection of the `KSampler` downcast only depends on
the resolution view. -/
theorem kSamplerAt_pos_viewEq (g g' : Prompt) (h : viewAssoc g = viewAssoc g')
    (id : String) :
    (kSamplerAt g id).map (fun (d : KSamplerData) => d.positive.node_id) =
      (kSamplerAt g' id).map (fun (d : KSamplerData) => d.positive.node_id) := by
  have e1 : ∀ (o : Option KSamplerData),
      (o.map (fun d => (d.positive, d.negative))).map (fun pr => pr.1.node_id) =
        o.map (fun (d : KSamplerData) => d.positive.node_id) := by
    intro o; cases o <;> rfl
  rw [← e1, ← e1, kSamplerAt_links_viewEq g g' h id]

/-- The negative-link projection of the `KSampler` downcast only depends on
the resolution view. -/
theorem kSamplerAt_neg_viewEq (g g' : Prompt) (h : viewAssoc g = viewAssoc g')
    (id : String) :
    (kSamplerAt g id).map (fun (d : KSamplerData) => d.negative.node_id) =
      (kSamplerAt g' id).map (fun (d : KSamplerData) => d.negative.node_id) := by
  have e1 : ∀ (o : Option KSamplerData),
      (o.map (fun d => (d.positive, d.negative))).map (fun pr => pr.2.node_id) =
        o.map (fun (d : KSamplerData) => d.negative.node_id) := by
    intro o; cases o <;> rfl
  rw [← e1, ← e1, kSamplerAt_links_viewEq g g' h id]

/-- The positive-link projection of the `SamplerCustom` downcast only depends
on the resolution view. -/
theorem samplerCustomAt_pos_viewEq (g g' : Prompt) (h : viewAssoc g = viewAssoc g')
    (id : String) :
    (samplerCustomAt g id).map (fun (d : SamplerCustomData) => d.positive.node_id) =
      (samplerCustomAt g' id).map (fun (d : SamplerCustomData) => d.positive.node_id) := by
  have e1 : ∀ (o : Option SamplerCustomData),
      (o.map (fun d => (d.positive, d.negative))).map (fun pr => pr.1.node_id) =
        o.map (fun (d : SamplerCustomData) => d.positive.node_id) := by
    intro o; cases o <;> rfl
  rw [← e1, ← e1, samplerCustomAt_links_viewEq g g' h id]

/-- The negative-link projection of the `SamplerCustom` downcast only depends
on the resolution view. -/
theorem samplerCustomAt_neg_viewEq (g g' : Prompt) (h : viewAssoc g = viewAssoc g')
    (id : String) :
    (samplerCustomAt g id).map (fun (d : SamplerCustomData) => d.negative.node_id) =
      (samplerCustomAt g' id).map (fun (d : SamplerCustomData) => d.negative.node_id) := by
  have e1 : ∀ (o : Option SamplerCustomData),
      (o.map (fun d => (d.positive, d.negative))).map (fun pr => pr.2.node_id) =
        o.map (fun (d : SamplerCustomData) => d.negative.node_id) := by
    intro o; cases o <;> rfl
  rw [← e1, ← e1, samplerCustomAt_links_viewEq g g' h id]

/-- The positive-prompt resolution only reads the resolution view. -/
theorem promptFindNode_viewEq (g g' : Prompt) (h : viewAssoc g = viewAssoc g')
    (a : Option String) : promptFindNode g a = promptFindNode g' a := by
  unfold promptFindNode
  simp only [find_node_viewEq g g' h, kSamplerAt_pos_viewEq g g' h,
    samplerCustomAt_pos_viewEq g g' h]

/-- The negative-prompt resolution only reads the resolution view. -/
theorem negativeFindNode_viewEq (g g' : Prompt) (h : viewAssoc g = viewAssoc g')
    (a : Option String) : negativeFindNode g a = negativeFindNode g' a := by
  unfold negativeFindNode
  simp only [find_node_viewEq g g' h, kSamplerAt_neg_viewEq g g' h,
    samplerCustomAt_neg_viewEq g g' h]

/-- Under the uniqueness invariant, overwriting a node with a view-equal node
leaves the graph's resolution view unchanged. -/
theorem viewAssoc_setNodeAt (g : Prompt) (id : String) (n n' : Node)
    (hnd : (keys g).Nodup) (h : getNode g id = some n) (hv : n'.view = n.view) :
    viewAssoc (setNodeAt g id n') = viewAssoc g := by
  induction g with
  | nil => rfl
  | cons p t ih =>
    obtain ⟨a, b⟩ := p
    simp only [keys, List.map_cons, List.nodup_cons] at hnd
    by_cases hp : a = id
    · have hbn : b = n := by
        have h2 : some b = some n := by rw [← h]; simp [getNode, hp]
        exact Option.some_inj.mp h2
      have hid : id ∉ keys t := by rw [← hp]; simpa [keys] using hnd.1
      simp [setNodeAt, hp, setNodeAt_of_not_mem t id n' hid, viewAssoc, hv, hbn]
    · have ht : getNode t id = some n := by
        have h2 := h
        simp only [getNode, hp, if_false] at h2
        exact h2
      have htl := ih (by simpa [keys] using hnd.2) ht
      simp only [viewAssoc] at htl
      simp [setNodeAt, hp, viewAssoc, htl]

/-- A `Prop`-level record of the facts every concrete `Setter` implementation
enjoys: its `set_value` never changes a node's resolution view, re-applying
`set_value` to a node it already processed reproduces the same node and
result, and its `find_node` only reads the graph's resolution view. -/
structure Lawful (s : SetterImpl) : Prop where
  sv_view : ∀ n, ((s.set_value n).1).view = n.view
  sv_idem : ∀ n, s.set_value ((s.set_value n).1) = s.set_value n
  find_inv : ∀ g g' a, viewAssoc g = viewAssoc g' → s.find_node g a = s.find_node g' a

/-- The prompt-text write never changes a node's resolution view. -/
theorem promptSetValue_view (v : String) (n : Node) :
    ((promptSetValue v n).1).view = n.view := by
  cases n with
  | clipTextEncode d => cases hd : d.text <;> simp [promptSetValue, hd, Node.view]
  | kSampler d => rfl
  | samplerCustom d => rfl
  | checkpointLoaderSimple d => rfl
  | emptyLatentImage d => rfl

/-- Re-applying the prompt-text write reproduces its own output. -/
theorem promptSetValue_idem (v : String) (n : Node) :
    promptSetValue v ((promptSetValue v n).1) = promptSetValue v n := by
  cases n with
  | clipTextEncode d => cases hd : d.text <;> simp [promptSetValue, hd]
  | kSampler d => rfl
  | samplerCustom d => rfl
  | checkpointLoaderSimple d => rfl
  | emptyLatentImage d => rfl

/-- The prompt-text write succeeds or leaves the node untouched. -/
theorem promptSetValue_errKeeps (v : String) (n : Node) :
    (promptSetValue v n).2 = .ok () ∨ (promptSetValue v n).1 = n := by
  cases n with
  | clipTextEncode d => cases hd : d.text <;> simp [promptSetValue, hd]
  | kSampler d => exact Or.inr rfl
  | samplerCustom d => exact Or.inr rfl
  | checkpointLoaderSimple d => exact Or.inr rfl
  | emptyLatentImage d => exact Or.inr rfl

/-- The checkpoint-name write never changes a node's resolution view. -/
theorem modelSetValue_view (v : String) (n : Node) :
    ((modelSetValue v n).1).view = n.view := by
  cases n with
  | checkpointLoaderSimple d => cases hd : d.ckpt_name <;> simp [modelSetValue, hd, Node.view]
  | kSampler d => rfl
  | samplerCustom d => rfl
  | clipTextEncode d => rfl
  | emptyLatentImage d => rfl

/-- Re-applying the checkpoint-name write reproduces its own output. -/
theorem modelSetValue_idem (v : String) (n : Node) :
    modelSetValue v ((modelSetValue v n).1) = modelSetValue v n := by
  cases n with
  | checkpointLoaderSimple d => cases hd : d.ckpt_name <;> simp [modelSetValue, hd]
  | kSampler d => rfl
  | samplerCustom d => rfl
  | clipTextEncode d => rfl
  | emptyLatentImage d => rfl

/-- The checkpoint-name write succeeds or leaves the node untouched. -/
theorem modelSetValue_errKeeps (v : String) (n : Node) :
    (modelSetValue v n).2 = .ok () ∨ (modelSetValue v n).1 = n := by
  cases n with
  | checkpointLoaderSimple d => cases hd : d.ckpt_name <;> simp [modelSetValue, hd]
  | kSampler d => exact Or.inr rfl
  | samplerCustom d => exact Or.inr rfl
  | clipTextEncode d => exact Or.inr rfl
  | emptyLatentImage d => exact Or.inr rfl

/-- The `KSampler` seed write never changes a node's resolution view. -/
theorem seedKSetValue_view (v : Int) (n : Node) :
    ((seedKSetValue v n).1).view = n.view := by
  cases n with
  | kSampler d => cases hd : d.seed <;> simp [seedKSetValue, hd, Node.view]
  | samplerCustom d => rfl
  | clipTextEncode d => rfl
  | checkpointLoaderSimple d => rfl
  | emptyLatentImage d => rfl

/-- Re-applying the `KSampler` seed write reproduces its own output. -/
theorem seedKSetValue_idem (v : Int) (n : Node) :
    seedKSetValue v ((seedKSetValue v n).1) = seedKSetValue v n := by
  cases n with
  | kSampler d => cases hd : d.seed <;> simp [seedKSetValue, hd]
  | samplerCustom d => rfl
  | clipTextEncode d => rfl
  | checkpointLoaderSimple d => rfl
  | emptyLatentImage d => rfl

/-- The `KSampler` seed write succeeds or leaves the node untouched. -/
theorem seedKSetValue_errKeeps (v : Int) (n : Node) :
    (seedKSetValue v n).2 = .ok () ∨ (seedKSetValue v n).1 = n := by
  cases n with
  | kSampler d => cases hd : d.seed <;> simp [seedKSetValue, hd]
  | samplerCustom d => exact Or.inr rfl
  | clipTextEncode d => exact Or.inr rfl
  | checkpointLoaderSimple d => exact Or.inr rfl
  | emptyLatentImage d => exact Or.inr rfl

/-- The `SamplerCustom` noise-seed write never changes a node's resolution
view. -/
theorem seedCustomSetValue_view (v : Int) (n : Node) :
    ((seedCustomSetValue v n).1).view = n.view := by
  cases n with
  | samplerCustom d => cases hd : d.noise_seed <;> simp [seedCustomSetValue, hd, Node.view]
  | kSampler d => rfl
  | clipTextEncode d => rfl
  | checkpointLoaderSimple d => rfl
  | emptyLatentImage d => rfl

/-- Re-applying the `SamplerCustom` noise-seed write reproduces its own
output. -/
theorem seedCustomSetValue_idem (v : Int) (n : Node) :
    seedCustomSetValue v ((seedCustomSetValue v n).1) = seedCustomSetValue v n := by
  cases n with
  | samplerCustom d => cases hd : d.noise_seed <;> simp [seedCustomSetValue, hd]
  | kSampler d => rfl
  | clipTextEncode d => rfl
  | checkpointLoaderSimple d => rfl
  | emptyLatentImage d => rfl

/-- The `SamplerCustom` noise-seed write succeeds or leaves the node
untouched. -/
theorem seedCustomSetValue_errKeeps (v : Int) (n : Node) :
    (seedCustomSetValue v n).2 = .ok () ∨ (seedCustomSetValue v n).1 = n := by
  cases n with
  | samplerCustom d => cases hd : d.noise_seed <;> simp [seedCustomSetValue, hd]
  | kSampler d => exact Or.inr rfl
  | clipTextEncode d => exact Or.inr rfl
  | checkpointLoaderSimple d => exact Or.inr rfl
  | emptyLatentImage d => exact Or.inr rfl

/-- The width half of the size write never changes a node's resolution view. -/
theorem sizeWriteWidth_view (w : Nat) (n : Node) :
    ((sizeWriteWidth w n).1).view = n.view := by
  cases n with
  | emptyLatentImage d => cases hd : d.width <;> simp [sizeWriteWidth, hd, Node.view]
  | kSampler d => rfl
  | samplerCustom d => rfl
  | clipTextEncode d => rfl
  | checkpointLoaderSimple d => rfl

/-- The height half of the size write never changes a node's resolution view. -/
theorem sizeWriteHeight_view (h : Nat) (n : Node) :
    ((sizeWriteHeight h n).1).view = n.view := by
  cases n with
  | emptyLatentImage d => cases hd : d.height <;> simp [sizeWriteHeight, hd, Node.view]
  | kSampler d => rfl
  | samplerCustom d => rfl
  | clipTextEncode d => rfl
  | checkpointLoaderSimple d => rfl

/-- The size write never changes a node's resolution view. -/
theorem sizeSetValue_view (w h : Nat) (n : Node) :
    ((sizeSetValue w h n).1).view = n.view := by
  unfold sizeSetValue
  cases hsw : (if w > 0 then sizeWriteWidth w n else (n, .ok ())) with
  | mk n1 r =>
    have hv1 : n1.view = n.view := by
      by_cases hw : w > 0
      · rw [if_pos hw] at hsw
        have := sizeWriteWidth_view w n
        rw [hsw] at this
        exact this
      · rw [if_neg hw] at hsw
        cases hsw
        rfl
    cases r with
    | error e => exact hv1
    | ok u =>
      by_cases hh : h > 0
      · simp only [if_pos hh]
        rw [sizeWriteHeight_view h n1]
        exact hv1
      · simp only [if_neg hh]
        exact hv1

/-- Re-applying the size write reproduces its own output. -/
theorem sizeSetValue_idem (w h : Nat) (n : Node) :
    sizeSetValue w h ((sizeSetValue w h n).1) = sizeSetValue w h n := by
  cases n with
  | emptyLatentImage d =>
    by_cases hw : w > 0 <;> by_cases hh : h > 0 <;>
      cases hdw : d.width <;> cases hdh : d.height <;>
        simp [sizeSetValue, sizeWriteWidth, sizeWriteHeight, hw, hh, hdw, hdh]
  | kSampler d =>
    by_cases hw : w > 0 <;> by_cases hh : h > 0 <;>
      simp [sizeSetValue, sizeWriteWidth, sizeWriteHeight, hw, hh]
  | samplerCustom d =>
    by_cases hw : w > 0 <;> by_cases hh : h > 0 <;>
      simp [sizeSetValue, sizeWriteWidth, sizeWriteHeight, hw, hh]
  | clipTextEncode d =>
    by_cases hw : w > 0 <;> by_cases hh : h > 0 <;>
      simp [sizeSetValue, sizeWriteWidth, sizeWriteHeight, hw, hh]
  | checkpointLoaderSimple d =>
    by_cases hw : w > 0 <;> by_cases hh : h > 0 <;>
      simp [sizeSetValue, sizeWriteWidth, sizeWriteHeight, hw, hh]

/-- `PromptSetter` is lawful. -/
theorem lawful_promptSetter (v : String) : Lawful (promptSetterImpl v) :=
  ⟨fun n => promptSetValue_view v n, fun n => promptSetValue_idem v n,
   fun g g' a h => promptFindNode_viewEq g g' h a⟩

/-- `NegativePromptSetter` is lawful. -/
theorem lawful_negativePromptSetter (v : String) : Lawful (negativePromptSetterImpl v) :=
  ⟨fun n => promptSetValue_view v n, fun n => promptSetValue_idem v n,
   fun g g' a h => negativeFindNode_viewEq g g' h a⟩

/-- `ModelSetter` is lawful. -/
theorem lawful_modelSetter (v : String) : Lawful (modelSetterImpl v) :=
  ⟨fun n => modelSetValue_view v n, fun n => modelSetValue_idem v n,
   fun g g' a h => find_node_viewEq g g' h .checkpointLoaderSimple a⟩

/-- `SizeSetter` is lawful. -/
theorem lawful_sizeSetter (w h : Nat) : Lawful (sizeSetterImpl w h) :=
  ⟨fun n => sizeSetValue_view w h n, fun n => sizeSetValue_idem w h n,
   fun g g' a hv => find_node_viewEq g g' hv .emptyLatentImage a⟩

/-- `SeedSetterT<KSampler>` is lawful. -/
theorem lawful_seedK (v : Int) : Lawful (seedKImpl v) :=
  ⟨fun n => seedKSetValue_view v n, fun n => seedKSetValue_idem v n,
   fun g g' a h => find_node_viewEq g g' h .kSampler a⟩

/-- `SeedSetterT<SamplerCustom>` is lawful. -/
theorem lawful_seedCustom (v : Int) : Lawful (seedCustomImpl v) :=
  ⟨fun n => seedCustomSetValue_view v n, fun n => seedCustomSetValue_idem v n,
   fun g g' a h => find_node_viewEq g g' h .samplerCustom a⟩

/-- The graph a write-back leaves behind. -/
theorem writeAt_graph (g : Prompt) (id : String) (p : Node × Except Err Unit) :
    (writeAt g id p).graph? = some (setNodeAt g id p.1) := by
  obtain ⟨n1, r⟩ := p
  cases r <;> rfl

/-- A write-back never panics. -/
theorem writeAt_ne_fatal (g : Prompt) (id : String) (p : Node × Except Err Unit) :
    writeAt g id p ≠ .fatal := by
  obtain ⟨n1, r⟩ := p
  cases r <;> simp [writeAt]

/-- Inversion of `Setter::set`: it either fails to resolve (leaving the graph
untouched) or applies `set_value` at the resolved id. -/
theorem set_out (s : SetterImpl) (g : Prompt) :
    s.set g = .err (.msg "Failed to find node") g ∨
    ∃ id n, guess_node g s.targetKind = some id ∧ getNode g id = some n ∧
      s.set g = writeAt g id (s.set_value n) := by
  unfold SetterImpl.set
  cases hg : guess_node g s.targetKind with
  | none => exact Or.inl rfl
  | some id =>
    cases hn : getNode g id with
    | none => exact Or.inl (by simp [hn])
    | some n => exact Or.inr ⟨id, n, rfl, hn, by simp [hn]⟩

/-- Inversion of `Setter::set_from`. -/
theorem set_from_out (s : SetterImpl) (g : Prompt) (a : String) :
    s.set_from g a = .err (.msg "Failed to find node") g ∨
    ∃ id n, s.find_node g (some a) = some id ∧ getNode g id = some n ∧
      s.set_from g a = writeAt g id (s.set_value n) := by
  unfold SetterImpl.set_from
  cases hg : s.find_node g (some a) with
  | none => exact Or.inl rfl
  | some id =>
    cases hn : getNode g id with
    | none => exact Or.inl (by simp [hn])
    | some n => exact Or.inr ⟨id, n, rfl, hn, by simp [hn]⟩

/-- Inversion of `Setter::set_node`: an absent id panics, a present one gets
`set_value` applied. -/
theorem set_node_out (s : SetterImpl) (g : Prompt) (id : String) :
    (getNode g id = none ∧ s.set_node g id = .fatal) ∨
    ∃ n, getNode g id = some n ∧ s.set_node g id = writeAt g id (s.set_value n) := by
  unfold SetterImpl.set_node
  cases hn : getNode g id with
  | none => exact Or.inl ⟨rfl, rfl⟩
  | some n => exact Or.inr ⟨n, rfl, rfl⟩

/-- Re-running `Setter::set` on the graph it produced reproduces the same
outcome. -/
theorem set_stable (s : SetterImpl) (hl : Lawful s) (g g' : Prompt)
    (hnd : (keys g).Nodup) (h : (s.set g).graph? = some g') :
    s.set g' = s.set g := by
  rcases set_out s g with hout | ⟨id, n, hg, hn, hw⟩
  · have hgg : g' = g := by
      rw [hout] at h
      simpa [RunOut.graph?] using h.symm
    rw [hgg]
  · have hg' : g' = setNodeAt g id (s.set_value n).1 := by
      rw [hw, writeAt_graph] at h
      exact (Option.some_inj.mp h).symm
    have hview : viewAssoc g' = viewAssoc g := by
      rw [hg']
      exact viewAssoc_setNodeAt g id n (s.set_value n).1 hnd hn (hl.sv_view n)
    have hguess : guess_node g' s.targetKind = some id := by
      rw [guess_node_viewEq g' g hview s.targetKind, hg]
    have hn2 : getNode g' id = some (s.set_value n).1 := by
      rw [hg', getNode_setNodeAt_self, hn]
      rfl
    have hset : setNodeAt g' id (s.set_value n).1 = setNodeAt g id (s.set_value n).1 := by
      rw [hg', setNodeAt_setNodeAt]
    unfold SetterImpl.set
    simp only [hguess, hg, hn2, hn, hl.sv_idem n, hw]
    unfold writeAt
    cases hr : (s.set_value n).2 <;> simp [hr, hset]

/-- Re-running `Setter::set_from` on the graph it produced reproduces the same
outcome. -/
theorem set_from_stable (s : SetterImpl) (hl : Lawful s) (g g' : Prompt) (a : String)
    (hnd : (keys g).Nodup) (h : (s.set_from g a).graph? = some g') :
    s.set_from g' a = s.set_from g a := by
  rcases set_from_out s g a with hout | ⟨id, n, hg, hn, hw⟩
  · have hgg : g' = g := by
      rw [hout] at h
      simpa [RunOut.graph?] using h.symm
    rw [hgg]
  · have hg' : g' = setNodeAt g id (s.set_value n).1 := by
      rw [hw, writeAt_graph] at h
      exact (Option.some_inj.mp h).symm
    have hview : viewAssoc g' = viewAssoc g := by
      rw [hg']
      exact viewAssoc_setNodeAt g id n (s.set_value n).1 hnd hn (hl.sv_view n)
    have hfind : s.find_node g' (some a) = some id := by
      rw [hl.find_inv g' g (some a) hview, hg]
    have hn2 : getNode g' id = some (s.set_value n).1 := by
      rw [hg', getNode_setNodeAt_self, hn]
      rfl
    have hset : setNodeAt g' id (s.set_value n).1 = setNodeAt g id (s.set_value n).1 := by
      rw [hg', setNodeAt_setNodeAt]
    unfold SetterImpl.set_from
    simp only [hfind, hg, hn2, hn, hl.sv_idem n, hw]
    unfold writeAt
    cases hr : (s.set_value n).2 <;> simp [hr, hset]

/-- Re-running `Setter::set_node` on the graph it produced reproduces the same
outcome. -/
theorem set_node_stable (s : SetterImpl) (hl : Lawful s) (g g' : Prompt) (id : String)
    (h : (s.set_node g id).graph? = some g') :
    s.set_node g' id = s.set_node g id := by
  rcases set_node_out s g id with ⟨hn, hout⟩ | ⟨n, hn, hw⟩
  · rw [hout] at h
    simp [RunOut.graph?] at h
  · have hg' : g' = setNodeAt g id (s.set_value n).1 := by
      rw [hw, writeAt_graph] at h
      exact (Option.some_inj.mp h).symm
    have hn2 : getNode g' id = some (s.set_value n).1 := by
      rw [hg', getNode_setNodeAt_self, hn]
      rfl
    have hset : setNodeAt g' id (s.set_value n).1 = setNodeAt g id (s.set_value n).1 := by
      rw [hg', setNodeAt_setNodeAt]
    unfold SetterImpl.set_node
    simp only [hn2, hn, hl.sv_idem n, hw]
    unfold writeAt
    cases hr : (s.set_value n).2 <;> simp [hr, hset]

/-- A lawful `set` leaves the resolution view and the identifiers unchanged. -/
theorem set_graph_inv (s : SetterImpl) (hl : Lawful s) (g g' : Prompt)
    (hnd : (keys g).Nodup) (h : (s.set g).graph? = some g') :
    viewAssoc g' = viewAssoc g ∧ keys g' = keys g := by
  rcases set_out s g with hout | ⟨id, n, hg, hn, hw⟩
  · have hgg : g' = g := by rw [hout] at h; simpa [RunOut.graph?] using h.symm
    rw [hgg]; exact ⟨rfl, rfl⟩
  · have hg' : g' = setNodeAt g id (s.set_value n).1 := by
      rw [hw, writeAt_graph] at h
      exact (Option.some_inj.mp h).symm
    subst hg'
    exact ⟨viewAssoc_setNodeAt g id n (s.set_value n).1 hnd hn (hl.sv_view n),
      keys_setNodeAt g id (s.set_value n).1⟩

/-- A lawful `set_from` leaves the resolution view and the identifiers
unchanged. -/
theorem set_from_graph_inv (s : SetterImpl) (hl : Lawful s) (g g' : Prompt) (a : String)
    (hnd : (keys g).Nodup) (h : (s.set_from g a).graph? = some g') :
    viewAssoc g' = viewAssoc g ∧ keys g' = keys g := by
  rcases set_from_out s g a with hout | ⟨id, n, hg, hn, hw⟩
  · have hgg : g' = g := by rw [hout] at h; simpa [RunOut.graph?] using h.symm
    rw [hgg]; exact ⟨rfl, rfl⟩
  · have hg' : g' = setNodeAt g id (s.set_value n).1 := by
      rw [hw, writeAt_graph] at h
      exact (Option.some_inj.mp h).symm
    subst hg'
    exact ⟨viewAssoc_setNodeAt g id n (s.set_value n).1 hnd hn (hl.sv_view n),
      keys_setNodeAt g id (s.set_value n).1⟩

/-- A lawful `set_node` leaves the resolution view and the identifiers
unchanged (when it terminates). -/
theorem set_node_graph_inv (s : SetterImpl) (hl : Lawful s) (g g' : Prompt) (id : String)
    (hnd : (keys g).Nodup) (h : (s.set_node g id).graph? = some g') :
    viewAssoc g' = viewAssoc g ∧ keys g' = keys g := by
  rcases set_node_out s g id with ⟨hn, hout⟩ | ⟨n, hn, hw⟩
  · rw [hout] at h
    simp [RunOut.graph?] at h
  · have hg' : g' = setNodeAt g id (s.set_value n).1 := by
      rw [hw, writeAt_graph] at h
      exact (Option.some_inj.mp h).symm
    subst hg'
    exact ⟨viewAssoc_setNodeAt g id n (s.set_value n).1 hnd hn (hl.sv_view n),
      keys_setNodeAt g id (s.set_value n).1⟩

/-- When `set_value` either succeeds or keeps the node, a failed `set` leaves
the graph unchanged. -/
theorem set_err_unchanged (s : SetterImpl)
    (hek : ∀ n, (s.set_value n).2 = .ok () ∨ (s.set_value n).1 = n)
    (g : Prompt) (hnd : (keys g).Nodup) (e : Err) (h' : Prompt)
    (hout : s.set g = .err e h') : h' = g := by
  rcases set_out s g with ho | ⟨id, n, hg, hn, hw⟩
  · rw [ho] at hout
    injection hout with h1 h2
    exact h2.symm
  · rw [hw] at hout
    unfold writeAt at hout
    cases hr : (s.set_value n).2 with
    | ok u =>
      simp only [hr] at hout
      exact RunOut.noConfusion hout
    | error e2 =>
      simp only [hr] at hout
      injection hout with h1 h2
      rcases hek n with hok | hkeep
      · rw [hr] at hok; cases hok
      · rw [← h2, hkeep]
        exact setNodeAt_self g id n hnd hn

/-- When `set_value` either succeeds or keeps the node, a failed `set_from`
leaves the graph unchanged. -/
theorem set_from_err_unchanged (s : SetterImpl)
    (hek : ∀ n, (s.set_value n).2 = .ok () ∨ (s.set_value n).1 = n)
    (g : Prompt) (a : String) (hnd : (keys g).Nodup) (e : Err) (h' : Prompt)
    (hout : s.set_from g a = .err e h') : h' = g := by
  rcases set_from_out s g a with ho | ⟨id, n, hg, hn, hw⟩
  · rw [ho] at hout
    injection hout with h1 h2
    exact h2.symm
  · rw [hw] at hout
    unfold writeAt at hout
    cases hr : (s.set_value n).2 with
    | ok u =>
      simp only [hr] at hout
      exact RunOut.noConfusion hout
    | error e2 =>
      simp only [hr] at hout
      injection hout with h1 h2
      rcases hek n with hok | hkeep
      · rw [hr] at hok; cases hok
      · rw [← h2, hkeep]
        exact setNodeAt_self g id n hnd hn

/-- When `set_value` either succeeds or keeps the node, a failed `set_node`
leaves the graph unchanged. -/
theorem set_node_err_unchanged (s : SetterImpl)
    (hek : ∀ n, (s.set_value n).2 = .ok () ∨ (s.set_value n).1 = n)
    (g : Prompt) (id : String) (hnd : (keys g).Nodup) (e : Err) (h' : Prompt)
    (hout : s.set_node g id = .err e h') : h' = g := by
  rcases set_node_out s g id with ⟨hn, ho⟩ | ⟨n, hn, hw⟩
  · rw [ho] at hout
    cases hout
  · rw [hw] at hout
    unfold writeAt at hout
    cases hr : (s.set_value n).2 with
    | ok u =>
      simp only [hr] at hout
      exact RunOut.noConfusion hout
    | error e2 =>
      simp only [hr] at hout
      injection hout with h1 h2
      rcases hek n with hok | hkeep
      · rw [hr] at hok; cases hok
      · rw [← h2, hkeep]
        exact setNodeAt_self g id n hnd hn

/-- The kind scan only collects present identifiers. -/
theorem matchesOfKind_sub_keys (g : Prompt) (k : Kind) (id : String)
    (h : id ∈ matchesOfKind g k) : id ∈ keys g := by
  induction g with
  | nil => simp [matchesOfKind] at h
  | cons p t ih =>
    obtain ⟨a, b⟩ := p
    by_cases hb : b.kind = k
    · simp only [matchesOfKind, if_pos hb, List.mem_cons] at h
      rcases h with h | h
      · simp [keys, h]
      · simp only [keys, List.map_cons, List.mem_cons]
        exact Or.inr (by simpa [keys] using ih h)
    · simp only [matchesOfKind, if_neg hb] at h
      simp only [keys, List.map_cons, List.mem_cons]
      exact Or.inr (by simpa [keys] using ih h)

/-- Under the uniqueness invariant, an id collected by the kind scan resolves
to a node of that kind. -/
theorem getNode_kind_of_matches (g : Prompt) (k : Kind) (id : String)
    (hnd : (keys g).Nodup) (h : id ∈ matchesOfKind g k) :
    ∃ n, getNode g id = some n ∧ n.kind = k := by
  induction g with
  | nil => simp [matchesOfKind] at h
  | cons p t ih =>
    obtain ⟨a, b⟩ := p
    simp only [keys, List.map_cons, List.nodup_cons] at hnd
    have hna : a ∉ keys t := by simpa [keys] using hnd.1
    by_cases hb : b.kind = k
    · simp only [matchesOfKind, if_pos hb, List.mem_cons] at h
      rcases h with h | h
      · exact ⟨b, by simp [getNode, h], hb⟩
      · have hne : ¬a = id := fun he => hna (he ▸ matchesOfKind_sub_keys t k id h)
        obtain ⟨n, hn, hk⟩ := ih (by simpa [keys] using hnd.2) h
        exact ⟨n, by simp [getNode, hne, hn], hk⟩
    · simp only [matchesOfKind, if_neg hb] at h
      have hne : ¬a = id := fun he => hna (he ▸ matchesOfKind_sub_keys t k id h)
      obtain ⟨n, hn, hk⟩ := ih (by simpa [keys] using hnd.2) h
      exact ⟨n, by simp [getNode, hne, hn], hk⟩

/-- A successful unanchored guess is a scan hit. -/
theorem guess_node_some_mem (g : Prompt) (k : Kind) (id : String)
    (h : guess_node g k = some id) : id ∈ matchesOfKind g k := by
  unfold guess_node find_node unanchoredQuery at h
  cases hm : matchesOfKind g k with
  | nil => rw [hm] at h; simp at h
  | cons x xs =>
    cases xs with
    | nil =>
      rw [hm] at h
      simp only [Option.some.injEq] at h
      simp [hm, h]
    | cons y ys => rw [hm] at h; simp at h

/-- Under the uniqueness invariant, any resolution (anchored or unanchored)
returns an id whose node has the requested kind. -/
theorem find_node_kind (g : Prompt) (k : Kind) (a : Option String) (id : String)
    (hnd : (keys g).Nodup) (h : find_node g k a = some id) :
    ∃ n, getNode g id = some n ∧ n.kind = k := by
  cases a with
  | none => exact getNode_kind_of_matches g k id hnd (guess_node_some_mem g k id h)
  | some x =>
    simp only [find_node] at h
    cases hx : getNode g x with
    | none => rw [hx] at h; cases h
    | some n =>
      simp only [hx] at h
      by_cases hk : n.kind = k
      · rw [if_pos hk] at h
        injection h with hxid
        exact ⟨n, hxid ▸ hx, hk⟩
      · rw [if_neg hk] at h
        cases h

/-- Inversion of a successful `set`. -/
theorem set_ok_inv (s : SetterImpl) (g g2 : Prompt) (h : s.set g = .ok g2) :
    ∃ id n, guess_node g s.targetKind = some id ∧ getNode g id = some n ∧
      (s.set_value n).2 = .ok () ∧ g2 = setNodeAt g id (s.set_value n).1 := by
  rcases set_out s g with ho | ⟨id, n, hg, hn, hw⟩
  · rw [ho] at h; cases h
  · rw [hw] at h
    unfold writeAt at h
    cases hr : (s.set_value n).2 with
    | error e =>
      simp only [hr] at h
      exact RunOut.noConfusion h
    | ok u =>
      simp only [hr] at h
      injection h with hg2
      exact ⟨id, n, hg, hn, by rw [hr], hg2.symm⟩

/-- Inversion of a successful `set_from`. -/
theorem set_from_ok_inv (s : SetterImpl) (g g2 : Prompt) (a : String)
    (h : s.set_from g a = .ok g2) :
    ∃ id n, s.find_node g (some a) = some id ∧ getNode g id = some n ∧
      (s.set_value n).2 = .ok () ∧ g2 = setNodeAt g id (s.set_value n).1 := by
  rcases set_from_out s g a with ho | ⟨id, n, hg, hn, hw⟩
  · rw [ho] at h; cases h
  · rw [hw] at h
    unfold writeAt at h
    cases hr : (s.set_value n).2 with
    | error e =>
      simp only [hr] at h
      exact RunOut.noConfusion h
    | ok u =>
      simp only [hr] at h
      injection h with hg2
      exact ⟨id, n, hg, hn, by rw [hr], hg2.symm⟩

/-- Inversion of a successful `set_node`. -/
theorem set_node_ok_inv (s : SetterImpl) (g g2 : Prompt) (id : String)
    (h : s.set_node g id = .ok g2) :
    ∃ n, getNode g id = some n ∧
      (s.set_value n).2 = .ok () ∧ g2 = setNodeAt g id (s.set_value n).1 := by
  rcases set_node_out s g id with ⟨hn, ho⟩ | ⟨n, hn, hw⟩
  · rw [ho] at h; cases h
  · rw [hw] at h
    unfold writeAt at h
    cases hr : (s.set_value n).2 with
    | error e =>
      simp only [hr] at h
      exact RunOut.noConfusion h
    | ok u =>
      simp only [hr] at h
      injection h with hg2
      exact ⟨n, hn, by rw [hr], hg2.symm⟩

/-- A successful noise-seed write happened on a `SamplerCustom` node and left
a `SamplerCustom` node. -/
theorem seedCustom_ok_shape (v : Int) (n : Node)
    (h : (seedCustomSetValue v n).2 = .ok ()) :
    ∃ d, (seedCustomSetValue v n).1 = .samplerCustom d := by
  cases n with
  | samplerCustom d => cases hd : d.noise_seed <;> simp [seedCustomSetValue, hd] at h ⊢
  | kSampler d => simp [seedCustomSetValue] at h
  | clipTextEncode d => simp [seedCustomSetValue] at h
  | checkpointLoaderSimple d => simp [seedCustomSetValue] at h
  | emptyLatentImage d => simp [seedCustomSetValue] at h

/-- Re-running a delegating `set` on the graph it produced reproduces the same
outcome, provided the two delegates are lawful, keep nodes on failure, and
target distinct kinds. -/
theorem delegSet_stable (s1 s2 : SetterImpl) (hl1 : Lawful s1) (hl2 : Lawful s2)
    (hek1 : ∀ n, (s1.set_value n).2 = .ok () ∨ (s1.set_value n).1 = n)
    (hek2 : ∀ n, (s2.set_value n).2 = .ok () ∨ (s2.set_value n).1 = n)
    (hkind : s1.targetKind ≠ s2.targetKind)
    (g g' : Prompt) (hnd : (keys g).Nodup)
    (h : (delegSet s1 s2 g).graph? = some g') :
    delegSet s1 s2 g' = delegSet s1 s2 g := by
  unfold delegSet at h ⊢
  cases h1 : s1.set g with
  | fatal =>
    rw [h1] at h
    exact Option.noConfusion h
  | ok g1 =>
    rw [h1] at h
    have h2 : some g1 = some g' := h
    obtain rfl : g1 = g' := Option.some_inj.mp h2
    have hs1 : s1.set g1 = s1.set g := set_stable s1 hl1 g g1 hnd (by rw [h1]; rfl)
    rw [hs1, h1]
  | err e1 g1 =>
    have hg1 : g1 = g := set_err_unchanged s1 hek1 g hnd e1 g1 h1
    rw [h1] at h
    have hx : (delegTail (s2.set g1)).graph? = some g' := h
    rw [hg1] at hx
    rw [hg1] at h1
    cases h2 : s2.set g with
    | fatal =>
      rw [h2] at hx
      exact Option.noConfusion hx
    | err e2 g2 =>
      rw [h2] at hx
      have hx2 : some g2 = some g' := hx
      obtain rfl : g2 = g' := Option.some_inj.mp hx2
      have hg2 : g2 = g := set_err_unchanged s2 hek2 g hnd e2 g2 h2
      rw [hg2]
      simp only [h1, hg1, h2]
    | ok g2 =>
      rw [h2] at hx
      have hx2 : some g2 = some g' := hx
      obtain rfl : g2 = g' := Option.some_inj.mp hx2
      obtain ⟨id2, n2, hg2r, hn2, hsv2, hG2⟩ := set_ok_inv s2 g _ h2
      have hview : viewAssoc g2 = viewAssoc g := by
        rw [hG2]
        exact viewAssoc_setNodeAt g id2 n2 _ hnd hn2 (hl2.sv_view n2)
      have hkeys : keys g2 = keys g := by
        rw [hG2]
        exact keys_setNodeAt g id2 _
      have hnd2 : (keys g2).Nodup := by rw [hkeys]; exact hnd
      obtain ⟨m2, hm2, hk2⟩ := find_node_kind g s2.targetKind none id2 hnd hg2r
      have hguess1 : guess_node g2 s1.targetKind = guess_node g s1.targetKind :=
        guess_node_viewEq g2 g hview s1.targetKind
      have hs2 : s2.set g2 = s2.set g := set_stable s2 hl2 g g2 hnd (by rw [h2]; rfl)
      cases hg1r : guess_node g s1.targetKind with
      | none =>
        have hs1x : s1.set g2 = .err (.msg "Failed to find node") g2 := by
          unfold SetterImpl.set
          rw [hguess1, hg1r]
        simp only [hs1x, hs2, h2, hg1]
      | some id1 =>
        obtain ⟨n1, hn1, hk1⟩ := find_node_kind g s1.targetKind none id1 hnd hg1r
        have hneq : id1 ≠ id2 := by
          intro heq
          rw [heq, hn2] at hn1
          have hnm : n1 = m2 := by
            rw [hn2] at hm2
            have ha := Option.some_inj.mp hn1
            have hb := Option.some_inj.mp hm2
            rw [← ha, ← hb]
          exact hkind (by rw [← hk1, hnm, hk2])
        have hn1x : getNode g2 id1 = some n1 := by
          rw [hG2, getNode_setNodeAt_ne g id2 id1 _ hneq]
          exact hn1
        have hmain := h1
        have hs1g : s1.set g = writeAt g id1 (s1.set_value n1) := by
          unfold SetterImpl.set
          simp only [hg1r, hn1]
        rw [hs1g] at hmain
        unfold writeAt at hmain
        cases hr : (s1.set_value n1).2 with
        | ok u =>
          simp only [hr] at hmain
          exact RunOut.noConfusion hmain
        | error e1x =>
          simp only [hr] at hmain
          have hkeep : (s1.set_value n1).1 = n1 := by
            rcases hek1 n1 with hok | hk
            · rw [hr] at hok; cases hok
            · exact hk
          have hself : setNodeAt g2 id1 (s1.set_value n1).1 = g2 := by
            rw [hkeep]
            exact setNodeAt_self g2 id1 n1 hnd2 hn1x
          have hs1x : s1.set g2 = .err e1x g2 := by
            unfold SetterImpl.set
            simp only [hguess1, hg1r, hn1x]
            unfold writeAt
            simp only [hr, hself]
          simp only [hs1x, hs2, h2, hg1]

/-- Re-running a delegating `set_from` on the graph it produced reproduces the
same outcome, provided the two delegates are lawful, keep nodes on failure,
target distinct kinds, and resolve kind-soundly. -/
theorem delegSetFrom_stable (s1 s2 : SetterImpl) (hl1 : Lawful s1) (hl2 : Lawful s2)
    (hek1 : ∀ n, (s1.set_value n).2 = .ok () ∨ (s1.set_value n).1 = n)
    (hek2 : ∀ n, (s2.set_value n).2 = .ok () ∨ (s2.set_value n).1 = n)
    (hkind : s1.targetKind ≠ s2.targetKind)
    (hfk1 : ∀ g a id, (keys g).Nodup → s1.find_node g (some a) = some id →
      ∃ n, getNode g id = some n ∧ n.kind = s1.targetKind)
    (hfk2 : ∀ g a id, (keys g).Nodup → s2.find_node g (some a) = some id →
      ∃ n, getNode g id = some n ∧ n.kind = s2.targetKind)
    (g g' : Prompt) (a : String) (hnd : (keys g).Nodup)
    (h : (delegSetFrom s1 s2 g a).graph? = some g') :
    delegSetFrom s1 s2 g' a = delegSetFrom s1 s2 g a := by
  unfold delegSetFrom at h ⊢
  cases h1 : s1.set_from g a with
  | fatal =>
    rw [h1] at h
    exact Option.noConfusion h
  | ok g1 =>
    rw [h1] at h
    have h2 : some g1 = some g' := h
    obtain rfl : g1 = g' := Option.some_inj.mp h2
    have hs1 : s1.set_from g1 a = s1.set_from g a :=
      set_from_stable s1 hl1 g g1 a hnd (by rw [h1]; rfl)
    rw [hs1, h1]
  | err e1 g1 =>
    have hg1 : g1 = g := set_from_err_unchanged s1 hek1 g a hnd e1 g1 h1
    rw [h1] at h
    have hx : (delegTail (s2.set_from g1 a)).graph? = some g' := h
    rw [hg1] at hx
    rw [hg1] at h1
    cases h2 : s2.set_from g a with
    | fatal =>
      rw [h2] at hx
      exact Option.noConfusion hx
    | err e2 g2 =>
      rw [h2] at hx
      have hx2 : some g2 = some g' := hx
      obtain rfl : g2 = g' := Option.some_inj.mp hx2
      have hg2 : g2 = g := set_from_err_unchanged s2 hek2 g a hnd e2 g2 h2
      rw [hg2]
      simp only [h1, hg1, h2]
    | ok g2 =>
      rw [h2] at hx
      have hx2 : some g2 = some g' := hx
      obtain rfl : g2 = g' := Option.some_inj.mp hx2
      obtain ⟨id2, n2, hg2r, hn2, hsv2, hG2⟩ := set_from_ok_inv s2 g _ a h2
      have hview : viewAssoc g2 = viewAssoc g := by
        rw [hG2]
        exact viewAssoc_setNodeAt g id2 n2 _ hnd hn2 (hl2.sv_view n2)
      have hkeys : keys g2 = keys g := by
        rw [hG2]
        exact keys_setNodeAt g id2 _
      have hnd2 : (keys g2).Nodup := by rw [hkeys]; exact hnd
      obtain ⟨m2, hm2, hk2⟩ := hfk2 g a id2 hnd hg2r
      have hfind1 : s1.find_node g2 (some a) = s1.find_node g (some a) :=
        hl1.find_inv g2 g (some a) hview
      have hs2 : s2.set_from g2 a = s2.set_from g a :=
        set_from_stable s2 hl2 g g2 a hnd (by rw [h2]; rfl)
      cases hg1r : s1.find_node g (some a) with
      | none =>
        have hs1x : s1.set_from g2 a = .err (.msg "Failed to find node") g2 := by
          unfold SetterImpl.set_from
          rw [hfind1, hg1r]
        simp only [hs1x, hs2, h2, hg1]
      | some id1 =>
        obtain ⟨n1, hn1, hk1⟩ := hfk1 g a id1 hnd hg1r
        have hneq : id1 ≠ id2 := by
          intro heq
          rw [heq, hn2] at hn1
          have hnm : n1 = m2 := by
            rw [hn2] at hm2
            have ha := Option.some_inj.mp hn1
            have hb := Option.some_inj.mp hm2
            rw [← ha, ← hb]
          exact hkind (by rw [← hk1, hnm, hk2])
        have hn1x : getNode g2 id1 = some n1 := by
          rw [hG2, getNode_setNodeAt_ne g id2 id1 _ hneq]
          exact hn1
        have hmain := h1
        have hs1g : s1.set_from g a = writeAt g id1 (s1.set_value n1) := by
          unfold SetterImpl.set_from
          simp only [hg1r, hn1]
        rw [hs1g] at hmain
        unfold writeAt at hmain
        cases hr : (s1.set_value n1).2 with
        | ok u =>
          simp only [hr] at hmain
          exact RunOut.noConfusion hmain
        | error e1x =>
          simp only [hr] at hmain
          have hkeep : (s1.set_value n1).1 = n1 := by
            rcases hek1 n1 with hok | hk
            · rw [hr] at hok; cases hok
            · exact hk
          have hself : setNodeAt g2 id1 (s1.set_value n1).1 = g2 := by
            rw [hkeep]
            exact setNodeAt_self g2 id1 n1 hnd2 hn1x
          have hs1x : s1.set_from g2 a = .err e1x g2 := by
            unfold SetterImpl.set_from
            simp only [hfind1, hg1r, hn1x]
            unfold writeAt
            simp only [hr, hself]
          simp only [hs1x, hs2, h2, hg1]

/-- Re-running the composed seed setter's `set_node` on the graph it produced
reproduces the same outcome. -/
theorem delegSetNode_stable_seed (v : Int) (g g' : Prompt) (i : String)
    (hnd : (keys g).Nodup)
    (h : (delegSetNode (seedKImpl v) (seedCustomImpl v) g i).graph? = some g') :
    delegSetNode (seedKImpl v) (seedCustomImpl v) g' i =
      delegSetNode (seedKImpl v) (seedCustomImpl v) g i := by
  unfold delegSetNode at h ⊢
  cases h1 : (seedKImpl v).set_node g i with
  | fatal =>
    rw [h1] at h
    exact Option.noConfusion h
  | ok g1 =>
    rw [h1] at h
    have h2 : some g1 = some g' := h
    obtain rfl : g1 = g' := Option.some_inj.mp h2
    have hs1 : (seedKImpl v).set_node g1 i = (seedKImpl v).set_node g i :=
      set_node_stable (seedKImpl v) (lawful_seedK v) g g1 i (by rw [h1]; rfl)
    rw [hs1, h1]
  | err e1 g1 =>
    have hg1 : g1 = g :=
      set_node_err_unchanged (seedKImpl v) (fun n => seedKSetValue_errKeeps v n)
        g i hnd e1 g1 h1
    rw [h1] at h
    have hx : (delegTail ((seedCustomImpl v).set_node g1 i)).graph? = some g' := h
    rw [hg1] at hx
    rw [hg1] at h1
    cases h2 : (seedCustomImpl v).set_node g i with
    | fatal =>
      rw [h2] at hx
      exact Option.noConfusion hx
    | err e2 g2 =>
      rw [h2] at hx
      have hx2 : some g2 = some g' := hx
      obtain rfl : g2 = g' := Option.some_inj.mp hx2
      have hg2 : g2 = g :=
        set_node_err_unchanged (seedCustomImpl v)
          (fun n => seedCustomSetValue_errKeeps v n) g i hnd e2 g2 h2
      rw [hg2]
      simp only [h1, hg1, h2]
    | ok g2 =>
      rw [h2] at hx
      have hx2 : some g2 = some g' := hx
      obtain rfl : g2 = g' := Option.some_inj.mp hx2
      obtain ⟨n, hn, hsv2, hG2⟩ := set_node_ok_inv (seedCustomImpl v) g g2 i h2
      obtain ⟨d2, hd2⟩ := seedCustom_ok_shape v n hsv2
      have hkeys : keys g2 = keys g := by
        rw [hG2]
        exact keys_setNodeAt g i _
      have hnd2 : (keys g2).Nodup := by rw [hkeys]; exact hnd
      have hn2 : getNode g2 i = some (.samplerCustom d2) := by
        rw [hG2, getNode_setNodeAt_self, hn, ← hd2]
        rfl
      have hself : setNodeAt g2 i (Node.samplerCustom d2) = g2 :=
        setNodeAt_self g2 i (.samplerCustom d2) hnd2 hn2
      have hs1x : (seedKImpl v).set_node g2 i =
          .err (.msg "Failed to cast node") g2 := by
        unfold SetterImpl.set_node
        simp only [hn2]
        unfold writeAt
        simp only [seedKImpl, seedKSetValue, hself]
      have hs2 : (seedCustomImpl v).set_node g2 i = (seedCustomImpl v).set_node g i :=
        set_node_stable (seedCustomImpl v) (lawful_seedCustom v) g g2 i (by rw [h2]; rfl)
      simp only [hs1x, hs2, h2, hg1]

/-- A node differs from itself on no field. -/
theorem diffCount_self (n : Node) : Node.diffCount n n = 0 := by
  cases n <;> simp [Node.diffCount]

/-- The prompt-text write changes at most one field. -/
theorem promptSetValue_diff (v : String) (n : Node) :
    Node.diffCount n ((promptSetValue v n).1) ≤ 1 := by
  cases n with
  | clipTextEncode d =>
    cases hd : d.text with
    | none => simp [promptSetValue, hd, diffCount_self]
    | some t =>
      simp only [promptSetValue, hd, Node.diffCount]
      split <;> omega
  | kSampler d => simp [promptSetValue, diffCount_self]
  | samplerCustom d => simp [promptSetValue, diffCount_self]
  | checkpointLoaderSimple d => simp [promptSetValue, diffCount_self]
  | emptyLatentImage d => simp [promptSetValue, diffCount_self]

/-- The checkpoint-name write changes at most one field. -/
theorem modelSetValue_diff (v : String) (n : Node) :
    Node.diffCount n ((modelSetValue v n).1) ≤ 1 := by
  cases n with
  | checkpointLoaderSimple d =>
    cases hd : d.ckpt_name with
    | none => simp [modelSetValue, hd, diffCount_self]
    | some t =>
      simp only [modelSetValue, hd, Node.diffCount]
      split <;> omega
  | kSampler d => simp [modelSetValue, diffCount_self]
  | samplerCustom d => simp [modelSetValue, diffCount_self]
  | clipTextEncode d => simp [modelSetValue, diffCount_self]
  | emptyLatentImage d => simp [modelSetValue, diffCount_self]

/-- The `KSampler` seed write changes at most one field. -/
theorem seedKSetValue_diff (v : Int) (n : Node) :
    Node.diffCount n ((seedKSetValue v n).1) ≤ 1 := by
  cases n with
  | kSampler d =>
    cases hd : d.seed with
    | none => simp [seedKSetValue, hd, diffCount_self]
    | some t =>
      simp only [seedKSetValue, hd, Node.diffCount]
      split <;> simp
  | samplerCustom d => simp [seedKSetValue, diffCount_self]
  | clipTextEncode d => simp [seedKSetValue, diffCount_self]
  | checkpointLoaderSimple d => simp [seedKSetValue, diffCount_self]
  | emptyLatentImage d => simp [seedKSetValue, diffCount_self]

/-- The `SamplerCustom` noise-seed write changes at most one field. -/
theorem seedCustomSetValue_diff (v : Int) (n : Node) :
    Node.diffCount n ((seedCustomSetValue v n).1) ≤ 1 := by
  cases n with
  | samplerCustom d =>
    cases hd : d.noise_seed with
    | none => simp [seedCustomSetValue, hd, diffCount_self]
    | some t =>
      simp only [seedCustomSetValue, hd, Node.diffCount]
      split <;> simp
  | kSampler d => simp [seedCustomSetValue, diffCount_self]
  | clipTextEncode d => simp [seedCustomSetValue, diffCount_self]
  | checkpointLoaderSimple d => simp [seedCustomSetValue, diffCount_self]
  | emptyLatentImage d => simp [seedCustomSetValue, diffCount_self]

/-- The size write changes at most two fields (width and height). -/
theorem sizeSetValue_diff (w h : Nat) (n : Node) :
    Node.diffCount n ((sizeSetValue w h n).1) ≤ 2 := by
  cases n with
  | emptyLatentImage d =>
    by_cases hw : w > 0 <;> by_cases hh : h > 0 <;>
      cases hdw : d.width <;> cases hdh : d.height <;>
        (simp only [sizeSetValue, sizeWriteWidth, sizeWriteHeight, hw, hh, hdw, hdh,
           if_true, if_false, ite_true, ite_false, Node.diffCount, diffCount_self]
         repeat' split
         all_goals omega)
  | kSampler d =>
    by_cases hw : w > 0 <;> by_cases hh : h > 0 <;>
      simp [sizeSetValue, sizeWriteWidth, sizeWriteHeight, hw, hh, diffCount_self]
  | samplerCustom d =>
    by_cases hw : w > 0 <;> by_cases hh : h > 0 <;>
      simp [sizeSetValue, sizeWriteWidth, sizeWriteHeight, hw, hh, diffCount_self]
  | clipTextEncode d =>
    by_cases hw : w > 0 <;> by_cases hh : h > 0 <;>
      simp [sizeSetValue, sizeWriteWidth, sizeWriteHeight, hw, hh, diffCount_self]
  | checkpointLoaderSimple d =>
    by_cases hw : w > 0 <;> by_cases hh : h > 0 <;>
      simp [sizeSetValue, sizeWriteWidth, sizeWriteHeight, hw, hh, diffCount_self]

/-- A failing size write has changed at most the width field. -/
theorem sizeSetValue_diff_err (w h : Nat) (n : Node) (e : Err)
    (he : (sizeSetValue w h n).2 = .error e) :
    Node.diffCount n ((sizeSetValue w h n).1) ≤ 1 := by
  cases n with
  | emptyLatentImage d =>
    by_cases hw : w > 0 <;> by_cases hh : h > 0 <;>
      cases hdw : d.width <;> cases hdh : d.height <;>
        (simp only [sizeSetValue, sizeWriteWidth, sizeWriteHeight, hw, hh, hdw, hdh,
           if_true, if_false, ite_true, ite_false, Node.diffCount, diffCount_self] at he ⊢
         repeat' split
         all_goals first | omega | exact Except.noConfusion he)
  | kSampler d =>
    by_cases hw : w > 0 <;> by_cases hh : h > 0 <;>
      simp [sizeSetValue, sizeWriteWidth, sizeWriteHeight, hw, hh, diffCount_self]
  | samplerCustom d =>
    by_cases hw : w > 0 <;> by_cases hh : h > 0 <;>
      simp [sizeSetValue, sizeWriteWidth, sizeWriteHeight, hw, hh, diffCount_self]
  | clipTextEncode d =>
    by_cases hw : w > 0 <;> by_cases hh : h > 0 <;>
      simp [sizeSetValue, sizeWriteWidth, sizeWriteHeight, hw, hh, diffCount_self]
  | checkpointLoaderSimple d =>
    by_cases hw : w > 0 <;> by_cases hh : h > 0 <;>
      simp [sizeSetValue, sizeWriteWidth, sizeWriteHeight, hw, hh, diffCount_self]

/-- A present identifier has a node. -/
theorem getNode_isSome_of_mem (g : Prompt) (id : String) (h : id ∈ keys g) :
    ∃ n, getNode g id = some n := by
  induction g with
  | nil => simp [keys] at h
  | cons p t ih =>
    by_cases hp : p.1 = id
    · exact ⟨p.2, by simp [getNode, hp]⟩
    · have hmem : id ∈ keys t := by
        simp only [keys, List.map_cons, List.mem_cons] at h
        rcases h with h | h
        · exact absurd h.symm hp
        · simpa [keys] using h
      obtain ⟨n, hn⟩ := ih hmem
      exact ⟨n, by simp [getNode, hp, hn]⟩

/-- `set_node` on an absent id panics. -/
theorem set_node_fatal (s : SetterImpl) (g : Prompt) (i : String)
    (hn : getNode g i = none) : s.set_node g i = .fatal := by
  unfold SetterImpl.set_node
  rw [hn]

/-- C1: the spec says `apply_to` (Setter::set_node) returns a failure when the
id is absent and that no input can trigger a panic; the code instead calls
`.unwrap()` on the failed lookup (setter.rs line 184), so every setter's
`set_node` on an absent id terminates the process. This theorem evaluates the
code's behavior: the run is `fatal` (a Rust panic), not an error return. -/
theorem c1_set_node_panics_on_absent_id (s : TheSetter) (g : Prompt) (i : String)
    (hn : getNode g i = none) : s.run (.opSetNode i) g = .fatal := by
  cases s with
  | positive v => exact set_node_fatal (promptSetterImpl v) g i hn
  | negative v => exact set_node_fatal (negativePromptSetterImpl v) g i hn
  | model v => exact set_node_fatal (modelSetterImpl v) g i hn
  | size w h => exact set_node_fatal (sizeSetterImpl w h) g i hn
  | seedK v => exact set_node_fatal (seedKImpl v) g i hn
  | seedCustom v => exact set_node_fatal (seedCustomImpl v) g i hn
  | seed v =>
    show delegSetNode (seedKImpl v) (seedCustomImpl v) g i = .fatal
    unfold delegSetNode
    rw [set_node_fatal (seedKImpl v) g i hn]

/-- Witness for C1: on the one-node graph holding only a text node "t", the
direct-id prompt write to the absent id "99" panics. -/
theorem c1_witness :
    getNode [("t", Node.clipTextEncode ⟨some "p"⟩)] "99" = none ∧
    (TheSetter.positive "x").run (.opSetNode "99")
      [("t", Node.clipTextEncode ⟨some "p"⟩)] = .fatal := by
  constructor
  · rfl
  · exact c1_set_node_panics_on_absent_id (TheSetter.positive "x")
      [("t", Node.clipTextEncode ⟨some "p"⟩)] "99" (by rfl)

/-- C3: on an `EmptyLatentImage` node with populated width and height, the size
write with width 0 and positive height writes only the height and keeps the
stored width byte-for-byte; symmetrically with height 0; and in general each
dimension is either left unchanged or overwritten with the supplied positive
value, so a zero is never written. -/
theorem c3_size_zero_skips (d : EmptyLatentImageData) (wv hv w h : Nat)
    (hw : d.width = some wv) (hh : d.height = some hv) :
    (h > 0 → sizeSetValue 0 h (.emptyLatentImage d) =
      (.emptyLatentImage ⟨d.width, some h⟩, .ok ())) ∧
    (w > 0 → sizeSetValue w 0 (.emptyLatentImage d) =
      (.emptyLatentImage ⟨some w, d.height⟩, .ok ())) ∧
    (∀ n' r, sizeSetValue w h (.emptyLatentImage d) = (n', r) →
      ∃ d', n' = .emptyLatentImage d' ∧
        (d'.width = d.width ∨ (w > 0 ∧ d'.width = some w)) ∧
        (d'.height = d.height ∨ (h > 0 ∧ d'.height = some h))) := by
  refine ⟨?_, ?_, ?_⟩
  · intro hpos
    simp [sizeSetValue, sizeWriteHeight, hh, hpos]
  · intro hpos
    simp [sizeSetValue, sizeWriteWidth, hw, hpos]
  · intro n' r heq
    by_cases hw0 : w > 0 <;> by_cases hh0 : h > 0 <;>
      simp only [sizeSetValue, sizeWriteWidth, sizeWriteHeight, hw, hh, hw0, hh0,
        if_true, if_false, ite_true, ite_false, Prod.mk.injEq] at heq
    · exact ⟨⟨some w, some h⟩, heq.1.symm, Or.inr ⟨hw0, rfl⟩, Or.inr ⟨hh0, rfl⟩⟩
    · exact ⟨⟨some w, some hv⟩, heq.1.symm, Or.inr ⟨hw0, rfl⟩, Or.inl hh.symm⟩
    · exact ⟨⟨some wv, some h⟩, heq.1.symm, Or.inl hw.symm, Or.inr ⟨hh0, rfl⟩⟩
    · exact ⟨d, heq.1.symm, Or.inl rfl, Or.inl rfl⟩

/-- Witness for C3: on a node with width 256 and height 256, the size write
(0, 512) yields height 512 with width still 256 and succeeds. -/
theorem c3_witness :
    ((⟨some 256, some 256⟩ : EmptyLatentImageData).width = some 256 ∧
      (⟨some 256, some 256⟩ : EmptyLatentImageData).height = some 256 ∧ (512 > 0)) ∧
    sizeSetValue 0 512 (.emptyLatentImage ⟨some 256, some 256⟩) =
      (.emptyLatentImage ⟨some 256, some 512⟩, .ok ()) := by
  refine ⟨⟨rfl, rfl, by decide⟩, ?_⟩
  exact (c3_size_zero_skips ⟨some 256, some 256⟩ 256 256 0 512 rfl rfl).1 (by decide)

/-- C5: a graph whose kind scan for `K` hits exactly one id resolves the
unanchored query to that id, and any Setter targeting `K` applies its
`set_value` write to exactly that node when `set` is invoked. -/
theorem c5_unique_kind_resolves (g : Prompt) (k : Kind) (id : String)
    (hone : matchesOfKind g k = [id]) :
    unanchoredQuery g k = .ok id ∧
    ∀ (s : SetterImpl), s.targetKind = k →
      ∃ n, getNode g id = some n ∧ s.set g = writeAt g id (s.set_value n) := by
  have hq : unanchoredQuery g k = .ok id := by
    unfold unanchoredQuery
    rw [hone]
  refine ⟨hq, ?_⟩
  intro s hsk
  have hguess : guess_node g k = some id := by
    unfold guess_node find_node
    rw [hq]
  have hmem : id ∈ keys g := matchesOfKind_sub_keys g k id (by rw [hone]; simp)
  cases hn : getNode g id with
  | none =>
    obtain ⟨n, hn2⟩ := getNode_isSome_of_mem g id hmem
    rw [hn] at hn2
    cases hn2
  | some n =>
    refine ⟨n, rfl, ?_⟩
    unfold SetterImpl.set
    rw [hsk]
    simp only [hguess, hn]

/-- Witness for C5: a one-checkpoint graph; the model setter writes that
node. -/
theorem c5_witness :
    matchesOfKind [("c", Node.checkpointLoaderSimple ⟨some "old"⟩)]
      Kind.checkpointLoaderSimple = ["c"] ∧
    unanchoredQuery [("c", Node.checkpointLoaderSimple ⟨some "old"⟩)]
      Kind.checkpointLoaderSimple = .ok "c" ∧
    (modelSetterImpl "new").set [("c", Node.checkpointLoaderSimple ⟨some "old"⟩)] =
      writeAt [("c", Node.checkpointLoaderSimple ⟨some "old"⟩)] "c"
        ((modelSetterImpl "new").set_value (Node.checkpointLoaderSimple ⟨some "old"⟩)) := by
  have hc := c5_unique_kind_resolves
    [("c", Node.checkpointLoaderSimple ⟨some "old"⟩)] Kind.checkpointLoaderSimple "c" rfl
  refine ⟨rfl, hc.1, ?_⟩
  obtain ⟨n, hn, hw⟩ := hc.2 (modelSetterImpl "new") rfl
  have heval : getNode [("c", Node.checkpointLoaderSimple ⟨some "old"⟩)] "c" =
      some (Node.checkpointLoaderSimple ⟨some "old"⟩) := rfl
  have hn' : n = Node.checkpointLoaderSimple ⟨some "old"⟩ :=
    Option.some_inj.mp (hn.symm.trans heval)
  subst hn'
  exact hw

/-- C6: a graph with zero nodes of kind `K` makes the unanchored query fail
with `NotFound`, one with two or more makes it fail with `Ambiguous`, and in
either case any Setter targeting `K` returns the `Failed to find node` error
and leaves the graph unchanged. -/
theorem c6_zero_or_many_fails (g : Prompt) (k : Kind)
    (hzm : matchesOfKind g k = [] ∨ 2 ≤ (matchesOfKind g k).length) :
    (matchesOfKind g k = [] → unanchoredQuery g k = .error .notFound) ∧
    (2 ≤ (matchesOfKind g k).length → unanchoredQuery g k = .error .ambiguous) ∧
    ∀ (s : SetterImpl), s.targetKind = k →
      s.set g = .err (.msg "Failed to find node") g := by
  refine ⟨?_, ?_, ?_⟩
  · intro h0
    unfold unanchoredQuery
    rw [h0]
  · intro h2
    unfold unanchoredQuery
    cases hm : matchesOfKind g k with
    | nil => rw [hm] at h2; simp at h2
    | cons x xs =>
      cases xs with
      | nil => rw [hm] at h2; simp at h2
      | cons y ys => rfl
  · intro s hsk
    have hguess : guess_node g k = none := by
      unfold guess_node find_node unanchoredQuery
      rcases hzm with h0 | h2
      · rw [h0]
      · cases hm : matchesOfKind g k with
        | nil => rfl
        | cons x xs =>
          cases xs with
          | nil => rw [hm] at h2; simp at h2
          | cons y ys => rfl
    unfold SetterImpl.set
    rw [hsk, hguess]

/-- Witness for C6: the empty graph has no checkpoint node, so the query is
`NotFound` and the model setter fails leaving the graph unchanged; a
two-checkpoint graph is `Ambiguous`. -/
theorem c6_witness :
    (matchesOfKind [] Kind.checkpointLoaderSimple = [] ∨
      2 ≤ (matchesOfKind [] Kind.checkpointLoaderSimple).length) ∧
    unanchoredQuery [] Kind.checkpointLoaderSimple = .error .notFound ∧
    (modelSetterImpl "m").set [] = .err (.msg "Failed to find node") [] ∧
    unanchoredQuery
      [("a", Node.checkpointLoaderSimple ⟨some "x"⟩),
       ("b", Node.checkpointLoaderSimple ⟨some "y"⟩)]
      Kind.checkpointLoaderSimple = .error .ambiguous := by
  have h1 := c6_zero_or_many_fails [] Kind.checkpointLoaderSimple (Or.inl rfl)
  have h2 := c6_zero_or_many_fails
    [("a", Node.checkpointLoaderSimple ⟨some "x"⟩),
     ("b", Node.checkpointLoaderSimple ⟨some "y"⟩)]
    Kind.checkpointLoaderSimple (Or.inr (by decide))
  exact ⟨Or.inl rfl, h1.1 rfl, h1.2.2 (modelSetterImpl "m") rfl, h2.2.1 (by decide)⟩

/-- C10: the prompt resolutions prefer `KSampler`: whenever the `KSampler`
branch resolves and downcasts, its conditioning link is returned regardless of
any `SamplerCustom` state; the `SamplerCustom` branch is consulted only when
the `KSampler` resolution yields nothing. -/
theorem c10_ksampler_preferred (g : Prompt) (a : Option String) :
    (∀ id d, find_node g Kind.kSampler a = some id → kSamplerAt g id = some d →
      promptFindNode g a = some d.positive.node_id ∧
      negativeFindNode g a = some d.negative.node_id) ∧
    (find_node g Kind.kSampler a = none →
      ∀ id2 d2, find_node g Kind.samplerCustom a = some id2 →
        samplerCustomAt g id2 = some d2 →
        promptFindNode g a = some d2.positive.node_id ∧
        negativeFindNode g a = some d2.negative.node_id) := by
  constructor
  · intro id d hf hd
    constructor
    · unfold promptFindNode
      simp only [hf, hd, Option.map_some']
    · unfold negativeFindNode
      simp only [hf, hd, Option.map_some']
  · intro hnone id2 d2 hf2 hd2
    constructor
    · unfold promptFindNode
      simp only [hnone, hf2, hd2, Option.map_some']
    · unfold negativeFindNode
      simp only [hnone, hf2, hd2, Option.map_some']

/-- Witness for C10: a graph holding both sampler kinds; the prompt
resolutions return the `KSampler`'s links, not the `SamplerCustom`'s. -/
theorem c10_witness :
    find_node
      [("k", Node.kSampler ⟨some 0, ⟨"p1", 0⟩, ⟨"n1", 0⟩⟩),
       ("c", Node.samplerCustom ⟨some 0, ⟨"p2", 0⟩, ⟨"n2", 0⟩⟩)]
      Kind.kSampler (some "k") = some "k" ∧
    kSamplerAt
      [("k", Node.kSampler ⟨some 0, ⟨"p1", 0⟩, ⟨"n1", 0⟩⟩),
       ("c", Node.samplerCustom ⟨some 0, ⟨"p2", 0⟩, ⟨"n2", 0⟩⟩)]
      "k" = some ⟨some 0, ⟨"p1", 0⟩, ⟨"n1", 0⟩⟩ ∧
    promptFindNode
      [("k", Node.kSampler ⟨some 0, ⟨"p1", 0⟩, ⟨"n1", 0⟩⟩),
       ("c", Node.samplerCustom ⟨some 0, ⟨"p2", 0⟩, ⟨"n2", 0⟩⟩)]
      (some "k") = some "p1" ∧
    negativeFindNode
      [("k", Node.kSampler ⟨some 0, ⟨"p1", 0⟩, ⟨"n1", 0⟩⟩),
       ("c", Node.samplerCustom ⟨some 0, ⟨"p2", 0⟩, ⟨"n2", 0⟩⟩)]
      (some "k") = some "n1" := by
  have hc := (c10_ksampler_preferred
    [("k", Node.kSampler ⟨some 0, ⟨"p1", 0⟩, ⟨"n1", 0⟩⟩),
     ("c", Node.samplerCustom ⟨some 0, ⟨"p2", 0⟩, ⟨"n2", 0⟩⟩)]
    (some "k")).1 "k" ⟨some 0, ⟨"p1", 0⟩, ⟨"n1", 0⟩⟩ rfl rfl
  exact ⟨rfl, rfl, hc.1, hc.2⟩

/-- C4: the composed seed setter (DelegatingSetter) first attempts the
`KSampler` delegate's full `set`; a success is returned as-is (the second
delegate is never applied). On a failure the graph is unchanged and the
`SamplerCustom` delegate runs on the same graph with the same value; its
success is the overall result. When both fail, the overall result is the
second delegate's error wrapped in the `Failed to set value` context, and the
graph is unchanged, so no delegate's write took effect. -/
theorem c4_delegation_fallback (v : Int) (g : Prompt) (hnd : (keys g).Nodup) :
    (∀ g1, (seedKImpl v).set g = .ok g1 →
      delegSet (seedKImpl v) (seedCustomImpl v) g = .ok g1) ∧
    (∀ e1 g1, (seedKImpl v).set g = .err e1 g1 → g1 = g ∧
      (∀ g2, (seedCustomImpl v).set g = .ok g2 →
        delegSet (seedKImpl v) (seedCustomImpl v) g = .ok g2) ∧
      (∀ e2 g2, (seedCustomImpl v).set g = .err e2 g2 → g2 = g ∧
        delegSet (seedKImpl v) (seedCustomImpl v) g =
          .err (.context "Failed to set value" e2) g)) := by
  constructor
  · intro g1 h1
    unfold delegSet
    simp only [h1]
  · intro e1 g1 h1
    have hg1 : g1 = g :=
      set_err_unchanged (seedKImpl v) (fun n => seedKSetValue_errKeeps v n) g hnd e1 g1 h1
    refine ⟨hg1, ?_, ?_⟩
    · intro g2 h2
      unfold delegSet
      simp only [h1, hg1, h2]
      rfl
    · intro e2 g2 h2
      have hg2 : g2 = g :=
        set_err_unchanged (seedCustomImpl v) (fun n => seedCustomSetValue_errKeeps v n)
          g hnd e2 g2 h2
      refine ⟨hg2, ?_⟩
      unfold delegSet
      simp only [h1, hg1, h2, hg2]
      rfl

/-- Witness for C4: a graph holding only a `SamplerCustom` node; the
`KSampler` delegate fails, the fallback succeeds and writes the noise seed. -/
theorem c4_witness :
    (keys [("c", Node.samplerCustom ⟨some 0, ⟨"p", 0⟩, ⟨"n", 0⟩⟩)]).Nodup ∧
    (seedKImpl 42).set [("c", Node.samplerCustom ⟨some 0, ⟨"p", 0⟩, ⟨"n", 0⟩⟩)] =
      .err (.msg "Failed to find node")
        [("c", Node.samplerCustom ⟨some 0, ⟨"p", 0⟩, ⟨"n", 0⟩⟩)] ∧
    delegSet (seedKImpl 42) (seedCustomImpl 42)
      [("c", Node.samplerCustom ⟨some 0, ⟨"p", 0⟩, ⟨"n", 0⟩⟩)] =
      .ok [("c", Node.samplerCustom ⟨some 42, ⟨"p", 0⟩, ⟨"n", 0⟩⟩)] := by
  refine ⟨by decide, rfl, ?_⟩
  have hc := (c4_delegation_fallback 42
    [("c", Node.samplerCustom ⟨some 0, ⟨"p", 0⟩, ⟨"n", 0⟩⟩)] (by decide)).2
    (.msg "Failed to find node")
    [("c", Node.samplerCustom ⟨some 0, ⟨"p", 0⟩, ⟨"n", 0⟩⟩)] rfl
  exact hc.2.1 [("c", Node.samplerCustom ⟨some 42, ⟨"p", 0⟩, ⟨"n", 0⟩⟩)] rfl

/-- C7: in any graph holding a sampler node `sid` of either recognized kind
(`KSampler` or `SamplerCustom`) whose positive-conditioning link names a text
node `tid` with populated text, the positive-prompt setter anchored at `sid`
resolves `tid` and writes the prompt there, leaving every other node of the
graph unchanged — regardless of what other text nodes exist. -/
theorem c7_anchored_positive_resolution (g : Prompt) (sid tid : String)
    (dt : CLIPTextEncodeData) (v txt : String)
    (hs : (∃ dk : KSamplerData,
            getNode g sid = some (.kSampler dk) ∧ dk.positive.node_id = tid) ∨
          (∃ dc : SamplerCustomData,
            getNode g sid = some (.samplerCustom dc) ∧ dc.positive.node_id = tid))
    (ht : getNode g tid = some (.clipTextEncode dt)) (htxt : dt.text = some txt) :
    promptFindNode g (some sid) = some tid ∧
    (promptSetterImpl v).set_from g sid =
      .ok (setNodeAt g tid (.clipTextEncode ⟨some v⟩)) ∧
    ∀ j, j ≠ tid →
      getNode (setNodeAt g tid (.clipTextEncode ⟨some v⟩)) j = getNode g j := by
  have hpf : promptFindNode g (some sid) = some tid := by
    rcases hs with ⟨dk, hsk, hlink⟩ | ⟨dc, hsc, hlink⟩
    · have hfind : find_node g Kind.kSampler (some sid) = some sid := by
        simp [find_node, hsk, Node.kind]
      have hk : kSamplerAt g sid = some dk := by
        unfold kSamplerAt
        simp only [hsk]
      unfold promptFindNode
      simp only [hfind, hk, Option.map_some', hlink]
    · have hfk : find_node g Kind.kSampler (some sid) = none := by
        simp [find_node, hsc, Node.kind]
      have hfc : find_node g Kind.samplerCustom (some sid) = some sid := by
        simp [find_node, hsc, Node.kind]
      have hcA : samplerCustomAt g sid = some dc := by
        unfold samplerCustomAt
        simp only [hsc]
      unfold promptFindNode
      simp only [hfk, hfc, hcA, Option.map_some', hlink]
  refine ⟨hpf, ?_, ?_⟩
  · unfold SetterImpl.set_from
    simp only [promptSetterImpl, hpf, ht]
    unfold writeAt
    simp only [promptSetValue, htxt]
  · intro j hj
    exact getNode_setNodeAt_ne g tid j _ hj

/-- Witness for C7: the anchored write lands on the linked text node in both
sampler-kind cases — a `KSampler` anchor writing "t1" despite "t2" existing,
and a `SamplerCustom` anchor writing "u1" despite "u2" existing. -/
theorem c7_witness :
    ((∃ dk : KSamplerData,
        getNode
          [("s", Node.kSampler ⟨some 0, ⟨"t1", 0⟩, ⟨"t2", 0⟩⟩),
           ("t1", Node.clipTextEncode ⟨some "a"⟩),
           ("t2", Node.clipTextEncode ⟨some "b"⟩)] "s" = some (.kSampler dk) ∧
        dk.positive.node_id = "t1") ∨
      (∃ dc : SamplerCustomData,
        getNode
          [("s", Node.kSampler ⟨some 0, ⟨"t1", 0⟩, ⟨"t2", 0⟩⟩),
           ("t1", Node.clipTextEncode ⟨some "a"⟩),
           ("t2", Node.clipTextEncode ⟨some "b"⟩)] "s" = some (.samplerCustom dc) ∧
        dc.positive.node_id = "t1")) ∧
    (promptSetterImpl "new").set_from
      [("s", Node.kSampler ⟨some 0, ⟨"t1", 0⟩, ⟨"t2", 0⟩⟩),
       ("t1", Node.clipTextEncode ⟨some "a"⟩),
       ("t2", Node.clipTextEncode ⟨some "b"⟩)] "s" =
      .ok [("s", Node.kSampler ⟨some 0, ⟨"t1", 0⟩, ⟨"t2", 0⟩⟩),
           ("t1", Node.clipTextEncode ⟨some "new"⟩),
           ("t2", Node.clipTextEncode ⟨some "b"⟩)] ∧
    (promptSetterImpl "new").set_from
      [("c", Node.samplerCustom ⟨some 0, ⟨"u1", 0⟩, ⟨"u2", 0⟩⟩),
       ("u1", Node.clipTextEncode ⟨some "a"⟩),
       ("u2", Node.clipTextEncode ⟨some "b"⟩)] "c" =
      .ok [("c", Node.samplerCustom ⟨some 0, ⟨"u1", 0⟩, ⟨"u2", 0⟩⟩),
           ("u1", Node.clipTextEncode ⟨some "new"⟩),
           ("u2", Node.clipTextEncode ⟨some "b"⟩)] := by
  refine ⟨Or.inl ⟨⟨some 0, ⟨"t1", 0⟩, ⟨"t2", 0⟩⟩, rfl, rfl⟩, ?_, ?_⟩
  · exact (c7_anchored_positive_resolution
      [("s", Node.kSampler ⟨some 0, ⟨"t1", 0⟩, ⟨"t2", 0⟩⟩),
       ("t1", Node.clipTextEncode ⟨some "a"⟩),
       ("t2", Node.clipTextEncode ⟨some "b"⟩)]
      "s" "t1" ⟨some "a"⟩ "new" "a"
      (Or.inl ⟨⟨some 0, ⟨"t1", 0⟩, ⟨"t2", 0⟩⟩, rfl, rfl⟩) rfl rfl).2.1
  · exact (c7_anchored_positive_resolution
      [("c", Node.samplerCustom ⟨some 0, ⟨"u1", 0⟩, ⟨"u2", 0⟩⟩),
       ("u1", Node.clipTextEncode ⟨some "a"⟩),
       ("u2", Node.clipTextEncode ⟨some "b"⟩)]
      "c" "u1" ⟨some "a"⟩ "new" "a"
      (Or.inr ⟨⟨some 0, ⟨"u1", 0⟩, ⟨"u2", 0⟩⟩, rfl, rfl⟩) rfl rfl).2.1

/-- Counterexample to C8 as stated: in a graph whose sampler's positive and
negative links both name the same text node "t", the Negative-text Setter
anchored at the sampler succeeds and overwrites "t"'s text — exactly the
field the Positive-text Setter targets on this graph. -/
theorem c8_counterexample :
    promptFindNode
      [("s", Node.kSampler ⟨some 0, ⟨"t", 0⟩, ⟨"t", 0⟩⟩),
       ("t", Node.clipTextEncode ⟨some "p"⟩)] none = some "t" ∧
    (negativePromptSetterImpl "neg").set_from
      [("s", Node.kSampler ⟨some 0, ⟨"t", 0⟩, ⟨"t", 0⟩⟩),
       ("t", Node.clipTextEncode ⟨some "p"⟩)] "s" =
      .ok [("s", Node.kSampler ⟨some 0, ⟨"t", 0⟩, ⟨"t", 0⟩⟩),
           ("t", Node.clipTextEncode ⟨some "neg"⟩)] ∧
    getNode [("s", Node.kSampler ⟨some 0, ⟨"t", 0⟩, ⟨"t", 0⟩⟩),
             ("t", Node.clipTextEncode ⟨some "neg"⟩)] "t" ≠
      getNode [("s", Node.kSampler ⟨some 0, ⟨"t", 0⟩, ⟨"t", 0⟩⟩),
               ("t", Node.clipTextEncode ⟨some "p"⟩)] "t" :=
  ⟨rfl, rfl, by decide⟩

/-- C8 (amended): the Negative-text Setter writes only the single node it
resolves (its unanchored guess for `set`, its negative-link resolution for
`set_from`, the given id for `set_node`); whenever that node differs from the
node the Positive-text Setter targets, the positive target is unchanged. The
exception the counterexample forces — the two resolutions naming the same
node — is exactly when the negative link (or a direct id, or a lone text
node) coincides with the positive target. -/
theorem c8_amended_non_interference (g : Prompt) (v : String) (t : String)
    (_hpos : promptFindNode g none = some t) :
    (∀ g1, ((negativePromptSetterImpl v).set g).graph? = some g1 →
      guess_node g Kind.clipTextEncode ≠ some t → getNode g1 t = getNode g t) ∧
    (∀ a g1, ((negativePromptSetterImpl v).set_from g a).graph? = some g1 →
      negativeFindNode g (some a) ≠ some t → getNode g1 t = getNode g t) ∧
    (∀ i g1, ((negativePromptSetterImpl v).set_node g i).graph? = some g1 →
      i ≠ t → getNode g1 t = getNode g t) := by
  refine ⟨?_, ?_, ?_⟩
  · intro g1 h hne
    rcases set_out (negativePromptSetterImpl v) g with ho | ⟨id, n, hg, hn, hw⟩
    · rw [ho] at h
      have : g1 = g := by simpa [RunOut.graph?] using h.symm
      rw [this]
    · have hg' : guess_node g Kind.clipTextEncode = some id := hg
      have hid : t ≠ id := by
        intro heq
        exact hne (heq ▸ hg')
      rw [hw, writeAt_graph] at h
      have hG : g1 = setNodeAt g id ((negativePromptSetterImpl v).set_value n).1 :=
        (Option.some_inj.mp h).symm
      rw [hG]
      exact getNode_setNodeAt_ne g id t _ hid
  · intro a g1 h hne
    rcases set_from_out (negativePromptSetterImpl v) g a with ho | ⟨id, n, hg, hn, hw⟩
    · rw [ho] at h
      have : g1 = g := by simpa [RunOut.graph?] using h.symm
      rw [this]
    · have hg' : negativeFindNode g (some a) = some id := hg
      have hid : t ≠ id := by
        intro heq
        exact hne (heq ▸ hg')
      rw [hw, writeAt_graph] at h
      have hG : g1 = setNodeAt g id ((negativePromptSetterImpl v).set_value n).1 :=
        (Option.some_inj.mp h).symm
      rw [hG]
      exact getNode_setNodeAt_ne g id t _ hid
  · intro i g1 h hne
    rcases set_node_out (negativePromptSetterImpl v) g i with ⟨hn, ho⟩ | ⟨n, hn, hw⟩
    · rw [ho] at h
      simp [RunOut.graph?] at h
    · rw [hw, writeAt_graph] at h
      have hG : g1 = setNodeAt g i ((negativePromptSetterImpl v).set_value n).1 :=
        (Option.some_inj.mp h).symm
      rw [hG]
      exact getNode_setNodeAt_ne g i t _ (fun he => hne he.symm)

/-- Witness for C8 (amended): with distinct positive ("tp") and negative
("tn") targets, the anchored negative write leaves "tp" untouched. -/
theorem c8_witness :
    promptFindNode
      [("s", Node.kSampler ⟨some 0, ⟨"tp", 0⟩, ⟨"tn", 0⟩⟩),
       ("tp", Node.clipTextEncode ⟨some "p"⟩),
       ("tn", Node.clipTextEncode ⟨some "n"⟩)] none = some "tp" ∧
    (∀ a g1, ((negativePromptSetterImpl "neg").set_from
        [("s", Node.kSampler ⟨some 0, ⟨"tp", 0⟩, ⟨"tn", 0⟩⟩),
         ("tp", Node.clipTextEncode ⟨some "p"⟩),
         ("tn", Node.clipTextEncode ⟨some "n"⟩)] a).graph? = some g1 →
      negativeFindNode
        [("s", Node.kSampler ⟨some 0, ⟨"tp", 0⟩, ⟨"tn", 0⟩⟩),
         ("tp", Node.clipTextEncode ⟨some "p"⟩),
         ("tn", Node.clipTextEncode ⟨some "n"⟩)] (some a) ≠ some "tp" →
      getNode g1 "tp" =
        getNode
          [("s", Node.kSampler ⟨some 0, ⟨"tp", 0⟩, ⟨"tn", 0⟩⟩),
           ("tp", Node.clipTextEncode ⟨some "p"⟩),
           ("tn", Node.clipTextEncode ⟨some "n"⟩)] "tp") :=
  ⟨rfl,
   (c8_amended_non_interference
     [("s", Node.kSampler ⟨some 0, ⟨"tp", 0⟩, ⟨"tn", 0⟩⟩),
      ("tp", Node.clipTextEncode ⟨some "p"⟩),
      ("tn", Node.clipTextEncode ⟨some "n"⟩)] "neg" "tp" rfl).2.1⟩

/-- A successful `set` is a single-node update bounded by the setter's field
diff bound. -/
theorem set_ok_one (s : SetterImpl) (c : Nat)
    (hdiff : ∀ n, Node.diffCount n ((s.set_value n).1) ≤ c)
    (g g1 : Prompt) (h : s.set g = .ok g1) :
    ∃ id n n', getNode g id = some n ∧ g1 = setNodeAt g id n' ∧
      Node.diffCount n n' ≤ c := by
  obtain ⟨id, n, hg, hn, hok, hG⟩ := set_ok_inv s g g1 h
  exact ⟨id, n, (s.set_value n).1, hn, hG, hdiff n⟩

/-- A successful `set_from` is a single-node update bounded by the setter's
field diff bound. -/
theorem set_from_ok_one (s : SetterImpl) (c : Nat)
    (hdiff : ∀ n, Node.diffCount n ((s.set_value n).1) ≤ c)
    (g g1 : Prompt) (a : String) (h : s.set_from g a = .ok g1) :
    ∃ id n n', getNode g id = some n ∧ g1 = setNodeAt g id n' ∧
      Node.diffCount n n' ≤ c := by
  obtain ⟨id, n, hg, hn, hok, hG⟩ := set_from_ok_inv s g g1 a h
  exact ⟨id, n, (s.set_value n).1, hn, hG, hdiff n⟩

/-- A successful `set_node` is a single-node update bounded by the setter's
field diff bound. -/
theorem set_node_ok_one (s : SetterImpl) (c : Nat)
    (hdiff : ∀ n, Node.diffCount n ((s.set_value n).1) ≤ c)
    (g g1 : Prompt) (i : String) (h : s.set_node g i = .ok g1) :
    ∃ id n n', getNode g id = some n ∧ g1 = setNodeAt g id n' ∧
      Node.diffCount n n' ≤ c := by
  obtain ⟨n, hn, hok, hG⟩ := set_node_ok_inv s g g1 i h
  exact ⟨i, n, (s.set_value n).1, hn, hG, hdiff n⟩

/-- A failing size `set` left the graph unchanged or wrote at most the width
field of one node. -/
theorem size_set_err (w h : Nat) (g g1 : Prompt) (e : Err)
    (hout : (sizeSetterImpl w h).set g = .err e g1) :
    g1 = g ∨ ∃ id n n', getNode g id = some n ∧ g1 = setNodeAt g id n' ∧
      Node.diffCount n n' ≤ 1 := by
  rcases set_out (sizeSetterImpl w h) g with ho | ⟨id, n, hg, hn, hw⟩
  · rw [ho] at hout
    injection hout with h1 h2
    exact Or.inl h2.symm
  · rw [hw] at hout
    unfold writeAt at hout
    cases hr : ((sizeSetterImpl w h).set_value n).2 with
    | ok u =>
      simp only [hr] at hout
      exact RunOut.noConfusion hout
    | error e2 =>
      simp only [hr] at hout
      injection hout with h1 h2
      exact Or.inr ⟨id, n, _, hn, h2.symm, sizeSetValue_diff_err w h n e2 hr⟩

/-- A failing size `set_from` left the graph unchanged or wrote at most the
width field of one node. -/
theorem size_set_from_err (w h : Nat) (g g1 : Prompt) (a : String) (e : Err)
    (hout : (sizeSetterImpl w h).set_from g a = .err e g1) :
    g1 = g ∨ ∃ id n n', getNode g id = some n ∧ g1 = setNodeAt g id n' ∧
      Node.diffCount n n' ≤ 1 := by
  rcases set_from_out (sizeSetterImpl w h) g a with ho | ⟨id, n, hg, hn, hw⟩
  · rw [ho] at hout
    injection hout with h1 h2
    exact Or.inl h2.symm
  · rw [hw] at hout
    unfold writeAt at hout
    cases hr : ((sizeSetterImpl w h).set_value n).2 with
    | ok u =>
      simp only [hr] at hout
      exact RunOut.noConfusion hout
    | error e2 =>
      simp only [hr] at hout
      injection hout with h1 h2
      exact Or.inr ⟨id, n, _, hn, h2.symm, sizeSetValue_diff_err w h n e2 hr⟩

/-- A failing size `set_node` left the graph unchanged or wrote at most the
width field of one node. -/
theorem size_set_node_err (w h : Nat) (g g1 : Prompt) (i : String) (e : Err)
    (hout : (sizeSetterImpl w h).set_node g i = .err e g1) :
    g1 = g ∨ ∃ id n n', getNode g id = some n ∧ g1 = setNodeAt g id n' ∧
      Node.diffCount n n' ≤ 1 := by
  rcases set_node_out (sizeSetterImpl w h) g i with ⟨hn, ho⟩ | ⟨n, hn, hw⟩
  · rw [ho] at hout
    cases hout
  · rw [hw] at hout
    unfold writeAt at hout
    cases hr : ((sizeSetterImpl w h).set_value n).2 with
    | ok u =>
      simp only [hr] at hout
      exact RunOut.noConfusion hout
    | error e2 =>
      simp only [hr] at hout
      injection hout with h1 h2
      exact Or.inr ⟨i, n, _, hn, h2.symm, sizeSetValue_diff_err w h n e2 hr⟩


/-- A failing composed-seed `set` leaves the graph unchanged. -/
theorem delegSet_err_unchanged_seed (v : Int) (g g1 : Prompt)
    (hnd : (keys g).Nodup) (e : Err)
    (h : delegSet (seedKImpl v) (seedCustomImpl v) g = .err e g1) : g1 = g := by
  unfold delegSet at h
  cases h1 : (seedKImpl v).set g with
  | ok gx =>
    rw [h1] at h
    exact RunOut.noConfusion h
  | fatal =>
    rw [h1] at h
    exact RunOut.noConfusion h
  | err e1 gx =>
    have hgx : gx = g :=
      set_err_unchanged (seedKImpl v) (fun n => seedKSetValue_errKeeps v n) g hnd e1 gx h1
    rw [h1] at h
    have hx : delegTail ((seedCustomImpl v).set gx) = .err e g1 := h
    rw [hgx] at hx
    cases h2 : (seedCustomImpl v).set g with
    | ok g2 =>
      rw [h2] at hx
      exact RunOut.noConfusion hx
    | fatal =>
      rw [h2] at hx
      exact RunOut.noConfusion hx
    | err e2 g2 =>
      rw [h2] at hx
      have hx2 : RunOut.err (.context "Failed to set value" e2) g2 = .err e g1 := hx
      injection hx2 with hxe hxg
      have hg2 : g2 = g :=
        set_err_unchanged (seedCustomImpl v) (fun n => seedCustomSetValue_errKeeps v n)
          g hnd e2 g2 h2
      rw [← hxg, hg2]

/-- A successful composed-seed `set` is a single-node single-field update. -/
theorem delegSet_ok_seed (v : Int) (g g1 : Prompt)
    (hnd : (keys g).Nodup)
    (h : delegSet (seedKImpl v) (seedCustomImpl v) g = .ok g1) :
    ∃ id n n', getNode g id = some n ∧ g1 = setNodeAt g id n' ∧
      Node.diffCount n n' ≤ 1 := by
  unfold delegSet at h
  cases h1 : (seedKImpl v).set g with
  | fatal =>
    rw [h1] at h
    exact RunOut.noConfusion h
  | ok gx =>
    rw [h1] at h
    have hx : RunOut.ok gx = RunOut.ok g1 := h
    injection hx with hxg
    rw [← hxg]
    exact set_ok_one (seedKImpl v) 1 (fun n => seedKSetValue_diff v n) g gx h1
  | err e1 gx =>
    have hgx : gx = g :=
      set_err_unchanged (seedKImpl v) (fun n => seedKSetValue_errKeeps v n) g hnd e1 gx h1
    rw [h1] at h
    have hx : delegTail ((seedCustomImpl v).set gx) = .ok g1 := h
    rw [hgx] at hx
    cases h2 : (seedCustomImpl v).set g with
    | fatal =>
      rw [h2] at hx
      exact RunOut.noConfusion hx
    | err e2 g2 =>
      rw [h2] at hx
      exact RunOut.noConfusion hx
    | ok g2 =>
      rw [h2] at hx
      have hx2 : RunOut.ok g2 = RunOut.ok g1 := hx
      injection hx2 with hxg
      rw [← hxg]
      exact set_ok_one (seedCustomImpl v) 1 (fun n => seedCustomSetValue_diff v n) g g2 h2

/-- A failing composed-seed `set_from` leaves the graph unchanged. -/
theorem delegSetFrom_err_unchanged_seed (v : Int) (g g1 : Prompt) (a : String)
    (hnd : (keys g).Nodup) (e : Err)
    (h : delegSetFrom (seedKImpl v) (seedCustomImpl v) g a = .err e g1) : g1 = g := by
  unfold delegSetFrom at h
  cases h1 : (seedKImpl v).set_from g a with
  | ok gx =>
    rw [h1] at h
    exact RunOut.noConfusion h
  | fatal =>
    rw [h1] at h
    exact RunOut.noConfusion h
  | err e1 gx =>
    have hgx : gx = g :=
      set_from_err_unchanged (seedKImpl v) (fun n => seedKSetValue_errKeeps v n)
        g a hnd e1 gx h1
    rw [h1] at h
    have hx : delegTail ((seedCustomImpl v).set_from gx a) = .err e g1 := h
    rw [hgx] at hx
    cases h2 : (seedCustomImpl v).set_from g a with
    | ok g2 =>
      rw [h2] at hx
      exact RunOut.noConfusion hx
    | fatal =>
      rw [h2] at hx
      exact RunOut.noConfusion hx
    | err e2 g2 =>
      rw [h2] at hx
      have hx2 : RunOut.err (.context "Failed to set value" e2) g2 = .err e g1 := hx
      injection hx2 with hxe hxg
      have hg2 : g2 = g :=
        set_from_err_unchanged (seedCustomImpl v)
          (fun n => seedCustomSetValue_errKeeps v n) g a hnd e2 g2 h2
      rw [← hxg, hg2]

/-- A successful composed-seed `set_from` is a single-node single-field
update. -/
theorem delegSetFrom_ok_seed (v : Int) (g g1 : Prompt) (a : String)
    (hnd : (keys g).Nodup)
    (h : delegSetFrom (seedKImpl v) (seedCustomImpl v) g a = .ok g1) :
    ∃ id n n', getNode g id = some n ∧ g1 = setNodeAt g id n' ∧
      Node.diffCount n n' ≤ 1 := by
  unfold delegSetFrom at h
  cases h1 : (seedKImpl v).set_from g a with
  | fatal =>
    rw [h1] at h
    exact RunOut.noConfusion h
  | ok gx =>
    rw [h1] at h
    have hx : RunOut.ok gx = RunOut.ok g1 := h
    injection hx with hxg
    rw [← hxg]
    exact set_from_ok_one (seedKImpl v) 1 (fun n => seedKSetValue_diff v n) g gx a h1
  | err e1 gx =>
    have hgx : gx = g :=
      set_from_err_unchanged (seedKImpl v) (fun n => seedKSetValue_errKeeps v n)
        g a hnd e1 gx h1
    rw [h1] at h
    have hx : delegTail ((seedCustomImpl v).set_from gx a) = .ok g1 := h
    rw [hgx] at hx
    cases h2 : (seedCustomImpl v).set_from g a with
    | fatal =>
      rw [h2] at hx
      exact RunOut.noConfusion hx
    | err e2 g2 =>
      rw [h2] at hx
      exact RunOut.noConfusion hx
    | ok g2 =>
      rw [h2] at hx
      have hx2 : RunOut.ok g2 = RunOut.ok g1 := hx
      injection hx2 with hxg
      rw [← hxg]
      exact set_from_ok_one (seedCustomImpl v) 1
        (fun n => seedCustomSetValue_diff v n) g g2 a h2

/-- A failing composed-seed `set_node` leaves the graph unchanged. -/
theorem delegSetNode_err_unchanged_seed (v : Int) (g g1 : Prompt) (i : String)
    (hnd : (keys g).Nodup) (e : Err)
    (h : delegSetNode (seedKImpl v) (seedCustomImpl v) g i = .err e g1) : g1 = g := by
  unfold delegSetNode at h
  cases h1 : (seedKImpl v).set_node g i with
  | ok gx =>
    rw [h1] at h
    exact RunOut.noConfusion h
  | fatal =>
    rw [h1] at h
    exact RunOut.noConfusion h
  | err e1 gx =>
    have hgx : gx = g :=
      set_node_err_unchanged (seedKImpl v) (fun n => seedKSetValue_errKeeps v n)
        g i hnd e1 gx h1
    rw [h1] at h
    have hx : delegTail ((seedCustomImpl v).set_node gx i) = .err e g1 := h
    rw [hgx] at hx
    cases h2 : (seedCustomImpl v).set_node g i with
    | ok g2 =>
      rw [h2] at hx
      exact RunOut.noConfusion hx
    | fatal =>
      rw [h2] at hx
      exact RunOut.noConfusion hx
    | err e2 g2 =>
      rw [h2] at hx
      have hx2 : RunOut.err (.context "Failed to set value" e2) g2 = .err e g1 := hx
      injection hx2 with hxe hxg
      have hg2 : g2 = g :=
        set_node_err_unchanged (seedCustomImpl v)
          (fun n => seedCustomSetValue_errKeeps v n) g i hnd e2 g2 h2
      rw [← hxg, hg2]

/-- A successful composed-seed `set_node` is a single-node single-field
update. -/
theorem delegSetNode_ok_seed (v : Int) (g g1 : Prompt) (i : String)
    (hnd : (keys g).Nodup)
    (h : delegSetNode (seedKImpl v) (seedCustomImpl v) g i = .ok g1) :
    ∃ id n n', getNode g id = some n ∧ g1 = setNodeAt g id n' ∧
      Node.diffCount n n' ≤ 1 := by
  unfold delegSetNode at h
  cases h1 : (seedKImpl v).set_node g i with
  | fatal =>
    rw [h1] at h
    exact RunOut.noConfusion h
  | ok gx =>
    rw [h1] at h
    have hx : RunOut.ok gx = RunOut.ok g1 := h
    injection hx with hxg
    rw [← hxg]
    exact set_node_ok_one (seedKImpl v) 1 (fun n => seedKSetValue_diff v n) g gx i h1
  | err e1 gx =>
    have hgx : gx = g :=
      set_node_err_unchanged (seedKImpl v) (fun n => seedKSetValue_errKeeps v n)
        g i hnd e1 gx h1
    rw [h1] at h
    have hx : delegTail ((seedCustomImpl v).set_node gx i) = .ok g1 := h
    rw [hgx] at hx
    cases h2 : (seedCustomImpl v).set_node g i with
    | fatal =>
      rw [h2] at hx
      exact RunOut.noConfusion hx
    | err e2 g2 =>
      rw [h2] at hx
      exact RunOut.noConfusion hx
    | ok g2 =>
      rw [h2] at hx
      have hx2 : RunOut.ok g2 = RunOut.ok g1 := hx
      injection hx2 with hxg
      rw [← hxg]
      exact set_node_ok_one (seedCustomImpl v) 1
        (fun n => seedCustomSetValue_diff v n) g g2 i h2

/-- Counterexample to C2 as stated: the SizeSetter's successful unanchored
`set` on a latent node with both fields populated writes two value fields
(diff count 2, not "exactly one"), and on a node whose height field is unset
it returns a failure after having already written the width — the graph is
observably changed by a failing call. -/
theorem c2_counterexample :
    (TheSetter.size 512 512).run .opSet
      [("l", Node.emptyLatentImage ⟨some 1, some 2⟩)] =
      .ok [("l", Node.emptyLatentImage ⟨some 512, some 512⟩)] ∧
    Node.diffCount (.emptyLatentImage ⟨some 1, some 2⟩)
      (.emptyLatentImage ⟨some 512, some 512⟩) = 2 ∧
    (TheSetter.size 512 512).run .opSet
      [("l", Node.emptyLatentImage ⟨some 1, none⟩)] =
      .err (.msg "Failed to get height value")
        [("l", Node.emptyLatentImage ⟨some 512, none⟩)] ∧
    ([("l", Node.emptyLatentImage ⟨some 512, none⟩)] : Prompt) ≠
      [("l", Node.emptyLatentImage ⟨some 1, none⟩)] :=
  ⟨rfl, rfl, rfl, by decide⟩

/-- C2 (amended): every setter invocation touches at most one node. For the
prompt, negative-prompt, model and seed setters a failing call leaves the
graph unchanged and a successful call rewrites at most the one target field
of the written node. The SizeSetter instead may rewrite both the width and
the height of its node on success, and a failing call may already have
rewritten the width (one field) — it is not atomic. -/
theorem c2_amended_one_node_writes (s : TheSetter) (o : Op) (g : Prompt)
    (hnd : (keys g).Nodup) :
    (∀ e g1, s.run o g = .err e g1 →
      g1 = g ∨ (s.isSize = true ∧ ∃ id n n', getNode g id = some n ∧
        g1 = setNodeAt g id n' ∧ Node.diffCount n n' ≤ 1)) ∧
    (∀ g1, s.run o g = .ok g1 →
      ∃ id n n', getNode g id = some n ∧ g1 = setNodeAt g id n' ∧
        Node.diffCount n n' ≤ (if s.isSize then 2 else 1)) := by
  cases s with
  | positive v =>
    cases o with
    | opSet =>
      refine ⟨?_, ?_⟩
      · intro e g1 hout
        exact Or.inl (set_err_unchanged (promptSetterImpl v) (fun n => promptSetValue_errKeeps v n) g hnd e g1 hout)
      · intro g1 hout
        exact set_ok_one (promptSetterImpl v) 1 (fun n => promptSetValue_diff v n) g g1 hout
    | opSetFrom a =>
      refine ⟨?_, ?_⟩
      · intro e g1 hout
        exact Or.inl (set_from_err_unchanged (promptSetterImpl v) (fun n => promptSetValue_errKeeps v n) g a hnd e g1 hout)
      · intro g1 hout
        exact set_from_ok_one (promptSetterImpl v) 1 (fun n => promptSetValue_diff v n) g g1 a hout
    | opSetNode i =>
      refine ⟨?_, ?_⟩
      · intro e g1 hout
        exact Or.inl (set_node_err_unchanged (promptSetterImpl v) (fun n => promptSetValue_errKeeps v n) g i hnd e g1 hout)
      · intro g1 hout
        exact set_node_ok_one (promptSetterImpl v) 1 (fun n => promptSetValue_diff v n) g g1 i hout
  | negative v =>
    cases o with
    | opSet =>
      refine ⟨?_, ?_⟩
      · intro e g1 hout
        exact Or.inl (set_err_unchanged (negativePromptSetterImpl v) (fun n => promptSetValue_errKeeps v n) g hnd e g1 hout)
      · intro g1 hout
        exact set_ok_one (negativePromptSetterImpl v) 1 (fun n => promptSetValue_diff v n) g g1 hout
    | opSetFrom a =>
      refine ⟨?_, ?_⟩
      · intro e g1 hout
        exact Or.inl (set_from_err_unchanged (negativePromptSetterImpl v) (fun n => promptSetValue_errKeeps v n) g a hnd e g1 hout)
      · intro g1 hout
        exact set_from_ok_one (negativePromptSetterImpl v) 1 (fun n => promptSetValue_diff v n) g g1 a hout
    | opSetNode i =>
      refine ⟨?_, ?_⟩
      · intro e g1 hout
        exact Or.inl (set_node_err_unchanged (negativePromptSetterImpl v) (fun n => promptSetValue_errKeeps v n) g i hnd e g1 hout)
      · intro g1 hout
        exact set_node_ok_one (negativePromptSetterImpl v) 1 (fun n => promptSetValue_diff v n) g g1 i hout
  | model v =>
    cases o with
    | opSet =>
      refine ⟨?_, ?_⟩
      · intro e g1 hout
        exact Or.inl (set_err_unchanged (modelSetterImpl v) (fun n => modelSetValue_errKeeps v n) g hnd e g1 hout)
      · intro g1 hout
        exact set_ok_one (modelSetterImpl v) 1 (fun n => modelSetValue_diff v n) g g1 hout
    | opSetFrom a =>
      refine ⟨?_, ?_⟩
      · intro e g1 hout
        exact Or.inl (set_from_err_unchanged (modelSetterImpl v) (fun n => modelSetValue_errKeeps v n) g a hnd e g1 hout)
      · intro g1 hout
        exact set_from_ok_one (modelSetterImpl v) 1 (fun n => modelSetValue_diff v n) g g1 a hout
    | opSetNode i =>
      refine ⟨?_, ?_⟩
      · intro e g1 hout
        exact Or.inl (set_node_err_unchanged (modelSetterImpl v) (fun n => modelSetValue_errKeeps v n) g i hnd e g1 hout)
      · intro g1 hout
        exact set_node_ok_one (modelSetterImpl v) 1 (fun n => modelSetValue_diff v n) g g1 i hout
  | seedK v =>
    cases o with
    | opSet =>
      refine ⟨?_, ?_⟩
      · intro e g1 hout
        exact Or.inl (set_err_unchanged (seedKImpl v) (fun n => seedKSetValue_errKeeps v n) g hnd e g1 hout)
      · intro g1 hout
        exact set_ok_one (seedKImpl v) 1 (fun n => seedKSetValue_diff v n) g g1 hout
    | opSetFrom a =>
      refine ⟨?_, ?_⟩
      · intro e g1 hout
        exact Or.inl (set_from_err_unchanged (seedKImpl v) (fun n => seedKSetValue_errKeeps v n) g a hnd e g1 hout)
      · intro g1 hout
        exact set_from_ok_one (seedKImpl v) 1 (fun n => seedKSetValue_diff v n) g g1 a hout
    | opSetNode i =>
      refine ⟨?_, ?_⟩
      · intro e g1 hout
        exact Or.inl (set_node_err_unchanged (seedKImpl v) (fun n => seedKSetValue_errKeeps v n) g i hnd e g1 hout)
      · intro g1 hout
        exact set_node_ok_one (seedKImpl v) 1 (fun n => seedKSetValue_diff v n) g g1 i hout
  | seedCustom v =>
    cases o with
    | opSet =>
      refine ⟨?_, ?_⟩
      · intro e g1 hout
        exact Or.inl (set_err_unchanged (seedCustomImpl v) (fun n => seedCustomSetValue_errKeeps v n) g hnd e g1 hout)
      · intro g1 hout
        exact set_ok_one (seedCustomImpl v) 1 (fun n => seedCustomSetValue_diff v n) g g1 hout
    | opSetFrom a =>
      refine ⟨?_, ?_⟩
      · intro e g1 hout
        exact Or.inl (set_from_err_unchanged (seedCustomImpl v) (fun n => seedCustomSetValue_errKeeps v n) g a hnd e g1 hout)
      · intro g1 hout
        exact set_from_ok_one (seedCustomImpl v) 1 (fun n => seedCustomSetValue_diff v n) g g1 a hout
    | opSetNode i =>
      refine ⟨?_, ?_⟩
      · intro e g1 hout
        exact Or.inl (set_node_err_unchanged (seedCustomImpl v) (fun n => seedCustomSetValue_errKeeps v n) g i hnd e g1 hout)
      · intro g1 hout
        exact set_node_ok_one (seedCustomImpl v) 1 (fun n => seedCustomSetValue_diff v n) g g1 i hout
  | size w h =>
    cases o with
    | opSet =>
      refine ⟨?_, ?_⟩
      · intro e g1 hout
        rcases size_set_err w h g g1 e hout with hu | hw2
        · exact Or.inl hu
        · exact Or.inr ⟨rfl, hw2⟩
      · intro g1 hout
        exact set_ok_one (sizeSetterImpl w h) 2 (fun n => sizeSetValue_diff w h n) g g1 hout
    | opSetFrom a =>
      refine ⟨?_, ?_⟩
      · intro e g1 hout
        rcases size_set_from_err w h g g1 a e hout with hu | hw2
        · exact Or.inl hu
        · exact Or.inr ⟨rfl, hw2⟩
      · intro g1 hout
        exact set_from_ok_one (sizeSetterImpl w h) 2
          (fun n => sizeSetValue_diff w h n) g g1 a hout
    | opSetNode i =>
      refine ⟨?_, ?_⟩
      · intro e g1 hout
        rcases size_set_node_err w h g g1 i e hout with hu | hw2
        · exact Or.inl hu
        · exact Or.inr ⟨rfl, hw2⟩
      · intro g1 hout
        exact set_node_ok_one (sizeSetterImpl w h) 2
          (fun n => sizeSetValue_diff w h n) g g1 i hout
  | seed v =>
    cases o with
    | opSet =>
      refine ⟨?_, ?_⟩
      · intro e g1 hout
        exact Or.inl (delegSet_err_unchanged_seed v g g1 hnd e hout)
      · intro g1 hout
        exact delegSet_ok_seed v g g1 hnd hout
    | opSetFrom a =>
      refine ⟨?_, ?_⟩
      · intro e g1 hout
        exact Or.inl (delegSetFrom_err_unchanged_seed v g g1 a hnd e hout)
      · intro g1 hout
        exact delegSetFrom_ok_seed v g g1 a hnd hout
    | opSetNode i =>
      refine ⟨?_, ?_⟩
      · intro e g1 hout
        exact Or.inl (delegSetNode_err_unchanged_seed v g g1 i hnd e hout)
      · intro g1 hout
        exact delegSetNode_ok_seed v g g1 i hnd hout

/-- Witness for C2 (amended): the prompt setter's `set_node` on a one-node
graph with a populated text field succeeds rewriting exactly that node. -/
theorem c2_witness :
    (keys [("t", Node.clipTextEncode ⟨some "p"⟩)]).Nodup ∧
    (∀ g1, (TheSetter.positive "x").run (.opSetNode "t")
        [("t", Node.clipTextEncode ⟨some "p"⟩)] = .ok g1 →
      ∃ id n n', getNode [("t", Node.clipTextEncode ⟨some "p"⟩)] id = some n ∧
        g1 = setNodeAt [("t", Node.clipTextEncode ⟨some "p"⟩)] id n' ∧
        Node.diffCount n n' ≤
          (if (TheSetter.positive "x").isSize then 2 else 1)) :=
  ⟨by decide,
   (c2_amended_one_node_writes (TheSetter.positive "x") (.opSetNode "t")
     [("t", Node.clipTextEncode ⟨some "p"⟩)] (by decide)).2⟩

/-- C9: applying the same setter with the same value twice in succession
reproduces the outcome of the single application — the second run returns the
same result and the same final graph, because every write is a plain
assignment and resolution only reads kinds and links, which writes preserve.
Stated for every concrete setter of `setter.rs`, every operation, and every
graph satisfying the spec's id-uniqueness invariant (whenever the first
application terminates rather than panicking). -/
theorem c9_setter_idempotent (s : TheSetter) (o : Op) (g g' : Prompt)
    (hnd : (keys g).Nodup) (h : (s.run o g).graph? = some g') :
    s.run o g' = s.run o g := by
  cases s with
  | positive v =>
    cases o with
    | opSet => exact set_stable (promptSetterImpl v) (lawful_promptSetter v) g g' hnd h
    | opSetFrom a =>
      exact set_from_stable (promptSetterImpl v) (lawful_promptSetter v) g g' a hnd h
    | opSetNode i =>
      exact set_node_stable (promptSetterImpl v) (lawful_promptSetter v) g g' i h
  | negative v =>
    cases o with
    | opSet =>
      exact set_stable (negativePromptSetterImpl v) (lawful_negativePromptSetter v) g g' hnd h
    | opSetFrom a =>
      exact set_from_stable (negativePromptSetterImpl v) (lawful_negativePromptSetter v)
        g g' a hnd h
    | opSetNode i =>
      exact set_node_stable (negativePromptSetterImpl v) (lawful_negativePromptSetter v)
        g g' i h
  | model v =>
    cases o with
    | opSet => exact set_stable (modelSetterImpl v) (lawful_modelSetter v) g g' hnd h
    | opSetFrom a =>
      exact set_from_stable (modelSetterImpl v) (lawful_modelSetter v) g g' a hnd h
    | opSetNode i =>
      exact set_node_stable (modelSetterImpl v) (lawful_modelSetter v) g g' i h
  | size w hh =>
    cases o with
    | opSet => exact set_stable (sizeSetterImpl w hh) (lawful_sizeSetter w hh) g g' hnd h
    | opSetFrom a =>
      exact set_from_stable (sizeSetterImpl w hh) (lawful_sizeSetter w hh) g g' a hnd h
    | opSetNode i =>
      exact set_node_stable (sizeSetterImpl w hh) (lawful_sizeSetter w hh) g g' i h
  | seedK v =>
    cases o with
    | opSet => exact set_stable (seedKImpl v) (lawful_seedK v) g g' hnd h
    | opSetFrom a => exact set_from_stable (seedKImpl v) (lawful_seedK v) g g' a hnd h
    | opSetNode i => exact set_node_stable (seedKImpl v) (lawful_seedK v) g g' i h
  | seedCustom v =>
    cases o with
    | opSet => exact set_stable (seedCustomImpl v) (lawful_seedCustom v) g g' hnd h
    | opSetFrom a =>
      exact set_from_stable (seedCustomImpl v) (lawful_seedCustom v) g g' a hnd h
    | opSetNode i =>
      exact set_node_stable (seedCustomImpl v) (lawful_seedCustom v) g g' i h
  | seed v =>
    cases o with
    | opSet =>
      exact delegSet_stable (seedKImpl v) (seedCustomImpl v)
        (lawful_seedK v) (lawful_seedCustom v)
        (fun n => seedKSetValue_errKeeps v n) (fun n => seedCustomSetValue_errKeeps v n)
        (fun hc => Kind.noConfusion hc) g g' hnd h
    | opSetFrom a =>
      exact delegSetFrom_stable (seedKImpl v) (seedCustomImpl v)
        (lawful_seedK v) (lawful_seedCustom v)
        (fun n => seedKSetValue_errKeeps v n) (fun n => seedCustomSetValue_errKeeps v n)
        (fun hc => Kind.noConfusion hc)
        (fun gg aa id hngg hf => find_node_kind gg .kSampler (some aa) id hngg hf)
        (fun gg aa id hngg hf => find_node_kind gg .samplerCustom (some aa) id hngg hf)
        g g' a hnd h
    | opSetNode i => exact delegSetNode_stable_seed v g g' i hnd h

/-- Witness for C9: re-running the model write on its own output reproduces
the same successful result. -/
theorem c9_witness :
    (keys [("c", Node.checkpointLoaderSimple ⟨some "old"⟩)]).Nodup ∧
    ((TheSetter.model "new").run .opSet
        [("c", Node.checkpointLoaderSimple ⟨some "old"⟩)]).graph? =
      some [("c", Node.checkpointLoaderSimple ⟨some "new"⟩)] ∧
    (TheSetter.model "new").run .opSet
        [("c", Node.checkpointLoaderSimple ⟨some "new"⟩)] =
      (TheSetter.model "new").run .opSet
        [("c", Node.checkpointLoaderSimple ⟨some "old"⟩)] :=
  ⟨by decide, rfl,
   c9_setter_idempotent (TheSetter.model "new") .opSet
     [("c", Node.checkpointLoaderSimple ⟨some "old"⟩)]
     [("c", Node.checkpointLoaderSimple ⟨some "new"⟩)] (by decide) rfl⟩
